/-
Verification of the ImmersedBoundary repository's core against its
natural-language specification.

The definitions below are shallow embeddings of the C++ source:
  * `copysign`, `vectorFromAtoBComp`, `getVectorFromAtoB`
      — ImmersedBoundaryMesh.cpp, GetVectorFromAtoB
  * `shortAxisDegenerate`
      — ImmersedBoundaryMesh.cpp, GetShortAxisOfElement (degenerate branch)
Machine doubles are modelled as real numbers; the claims under study are
exact real-arithmetic identities.
-/
import Mathlib

open Real

/-- C `copysign(x, s)`: magnitude of `x` with the sign of `s` (the sign of
`+0.0` counts as positive, matching C for the inputs that arise here). -/

noncomputable def copysign (x s : ℝ) : ℝ := if s < 0 then -|x| else |x|

/-- One component of `ImmersedBoundaryMesh::GetVectorFromAtoB`:
`vector = B - A`; if `fabs(vector) > 0.5` replace it by
`copysign(fabs(vector) - 1.0, -vector)`. -/

noncomputable def vectorFromAtoBComp (a b : ℝ) : ℝ :=
  if |b - a| > 0.5 then copysign (|b - a| - 1.0) (-(b - a)) else b - a

/-- `ImmersedBoundaryMesh::GetVectorFromAtoB` on the 2-D unit torus,
componentwise. -/

noncomputable def getVectorFromAtoB (A B : ℝ × ℝ) : ℝ × ℝ :=
  (vectorFromAtoBComp A.1 B.1, vectorFromAtoBComp A.2 B.2)

/-- The degenerate branch of `ImmersedBoundaryMesh::GetShortAxisOfElement`:
when the discriminant is below `1e-10` the code draws `r = ranf() ∈ [0,1)`
and returns the vector `(r, sqrt(1 - r*r))`. -/

noncomputable def shortAxisDegenerate (r : ℝ) : ℝ × ℝ :=
  (r, Real.sqrt (1.0 - r * r))

/-
Cell-cell interaction force: the per-pair body of
`ImmersedBoundaryCellCellInteractionForce::AddImmersedBoundaryForceContribution`.
A pair contributes only when the two nodes' first containing elements differ
and the torus distance is below the interaction distance.  The returned value
is the pair (force added to node a, force added to node b); pairs that fail
the guards add nothing (modelled as zero forces).  `wellWidth` is
`0.25 * interaction distance` as precomputed by the source.
-/
noncomputable def cellCellPairForces (springConst restLength intrinsicSpacing
    interactionDistance : ℝ) (isLinear : Bool) (elemA elemB : ℕ)
    (locA locB : ℝ × ℝ) (spacingA spacingB : ℝ)
    (eCadA pCadA integrinA eCadB pCadB integrinB : ℝ) :
    (ℝ × ℝ) × (ℝ × ℝ) :=
  let wellWidth := 0.25 * interactionDistance
  if elemA ≠ elemB then
    let vec := getVectorFromAtoB locA locB
    let normedDist := Real.sqrt (vec.1 ^ 2 + vec.2 ^ 2)
    if normedDist < interactionDistance then
      let elemSpacing := 0.5 * (spacingA + spacingB)
      let effectiveSpringConst := springConst * elemSpacing / intrinsicSpacing
      let proteinMult := min eCadA eCadB + min pCadA pCadB + max integrinA integrinB
      let scaled : ℝ × ℝ :=
        if isLinear then
          (vec.1 * (effectiveSpringConst * proteinMult * (normedDist - restLength) / normedDist),
           vec.2 * (effectiveSpringConst * proteinMult * (normedDist - restLength) / normedDist))
        else
          (vec.1 * (2.0 * wellWidth * effectiveSpringConst * proteinMult *
              Real.exp ((restLength - normedDist) / wellWidth) *
              (1.0 - Real.exp ((restLength - normedDist) / wellWidth)) / normedDist),
           vec.2 * (2.0 * wellWidth * effectiveSpringConst * proteinMult *
              Real.exp ((restLength - normedDist) / wellWidth) *
              (1.0 - Real.exp ((restLength - normedDist) / wellWidth)) / normedDist))
      ((scaled.1 * elemSpacing / spacingA, scaled.2 * elemSpacing / spacingA),
       (-1.0 * scaled.1 * elemSpacing / spacingB, -1.0 * scaled.2 * elemSpacing / spacingB))
    else ((0, 0), (0, 0))
  else ((0, 0), (0, 0))

/-
Membrane elasticity force,
`ImmersedBoundaryMembraneElasticityForce::AddForceContribution`.

`elasticForceToNextNode` is the force exerted on node `i+1` by node `i`
exactly as the source computes it: the spring constant is multiplied by 10
and the rest length by 4 when *node i* has region < 2 (basal = 0 or
apical = 1); the direction vector is `GetVectorFromAtoB(next, this)`.
`membraneAggregateForce` is the vector the second loop adds to node `i`.
-/
noncomputable def elasticForceToNextNode (n : ℕ) (locs : ℕ → ℝ × ℝ)
    (region : ℕ → ℕ) (springConstant restLength : ℝ) (i : ℕ) : ℝ × ℝ :=
  let nextIdx := (i + 1) % n
  let modified : ℝ × ℝ :=
    if region i < 2 then (springConstant * 10.0, restLength * 4.0)
    else (springConstant, restLength)
  let d := getVectorFromAtoB (locs nextIdx) (locs i)
  let normedDist := Real.sqrt (d.1 ^ 2 + d.2 ^ 2)
  (d.1 * (modified.1 * (normedDist - modified.2) / normedDist),
   d.2 * (modified.1 * (normedDist - modified.2) / normedDist))

/-- The aggregate force the source's second loop adds to node `i`:
`elastic_force_to_next_node[prev] - elastic_force_to_next_node[i]` with
`prev = (i + n - 1) % n`. -/

noncomputable def membraneAggregateForce (n : ℕ) (locs : ℕ → ℝ × ℝ)
    (region : ℕ → ℕ) (springConstant restLength : ℝ) (i : ℕ) : ℝ × ℝ :=
  let prevIdx := (i + n - 1) % n
  ((elasticForceToNextNode n locs region springConstant restLength prevIdx).1 -
     (elasticForceToNextNode n locs region springConstant restLength i).1,
   (elasticForceToNextNode n locs region springConstant restLength prevIdx).2 -
     (elasticForceToNextNode n locs region springConstant restLength i).2)

/-- Modelled from the claim's wording: Hooke edge force `F_i = k·(|d|-l)·dhat`
with `d = vector_from(next, this)`, the constants stiffened (x10, x4) whenever
*either endpoint* of edge `i` (node `i` or node `i+1`) is apical or basal.
Kept for comparison with the source's `elasticForceToNextNode`. -/

noncomputable def claimEdgeForceEitherEndpoint (n : ℕ) (locs : ℕ → ℝ × ℝ)
    (region : ℕ → ℕ) (springConstant restLength : ℝ) (i : ℕ) : ℝ × ℝ :=
  let nextIdx := (i + 1) % n
  let k := if region i < 2 ∨ region nextIdx < 2 then springConstant * 10.0 else springConstant
  let l := if region i < 2 ∨ region nextIdx < 2 then restLength * 4.0 else restLength
  let d := getVectorFromAtoB (locs nextIdx) (locs i)
  let normedDist := Real.sqrt (d.1 ^ 2 + d.2 ^ 2)
  ((k * (normedDist - l)) * (d.1 / normedDist),
   (k * (normedDist - l)) * (d.2 / normedDist))

/-- Modelled from the claim's wording, amended: identical to
`claimEdgeForceEitherEndpoint` except that the stiffened constants apply
exactly when *node i* (the first endpoint of edge `i`) has region apical or
basal, which is the source's condition. -/

noncomputable def claimEdgeForceFirstEndpoint (n : ℕ) (locs : ℕ → ℝ × ℝ)
    (region : ℕ → ℕ) (springConstant restLength : ℝ) (i : ℕ) : ℝ × ℝ :=
  let nextIdx := (i + 1) % n
  let k := if region i < 2 then springConstant * 10.0 else springConstant
  let l := if region i < 2 then restLength * 4.0 else restLength
  let d := getVectorFromAtoB (locs nextIdx) (locs i)
  let normedDist := Real.sqrt (d.1 ^ 2 + d.2 ^ 2)
  ((k * (normedDist - l)) * (d.1 / normedDist),
   (k * (normedDist - l)) * (d.2 / normedDist))

/-- Concrete 3-node element used to refute the "either endpoint" reading:
node 0 is lateral (region 2), node 1 is basal (region 0), node 2 basal. -/

noncomputable def c4Locs : ℕ → ℝ × ℝ :=
  fun j => if j = 0 then (0, 0) else if j = 1 then (0.3, 0.4) else (0.3, 0)

def c4Region : ℕ → ℕ := fun j => if j = 0 then 2 else 0

/-
Cell-cell interaction force set-up (the first-call block of
`AddImmersedBoundaryForceContribution` together with
`InitializeProteinLevels`).  Nodes are modelled by their attribute vectors
(`List ℝ`), elements by their node-index lists; the membrane element is
identified by index.  The set-up checks all nodes have equally long attribute
vectors (else the AttributeMismatch error), appends three zero-initialised
protein slots to every node, and then adds, per element, `e_cad`/`p_cad`/
`integrin` to each member node's three protein slots, where the source sets
`e_cad = 1.0` in both branches of its membrane test and `p_cad = integrin = 0`.
-/

/-- Attribute value of node `n`, slot `s` (0 when out of range). -/
def attribVal (ns : List (List ℝ)) (n s : ℕ) : ℝ := (ns.getD n []).getD s 0

/-- `r_node_attributes[slot] += v` on node `nIdx`. -/

def addToSlot (nodes : List (List ℝ)) (nIdx slot : ℕ) (v : ℝ) : List (List ℝ) :=
  nodes.set nIdx ((nodes.getD nIdx []).set slot ((nodes.getD nIdx []).getD slot 0 + v))

def initElemProteins (s0 s1 s2 : ℕ) (eCad pCad integrin : ℝ)
    (nodes : List (List ℝ)) (elemNodes : List ℕ) : List (List ℝ) :=
  elemNodes.foldl (fun ns nIdx =>
    addToSlot (addToSlot (addToSlot ns nIdx s0 eCad) nIdx s1 pCad) nIdx s2 integrin) nodes

def initializeProteinLevels (membraneIdx : Option ℕ) (s0 s1 s2 : ℕ)
    (nodes : List (List ℝ)) (elements : List (List ℕ)) : List (List ℝ) :=
  (List.range elements.length).foldl (fun ns eIdx =>
    let eCad : ℝ := if some eIdx = membraneIdx then 1.0 else 1.0
    let pCad : ℝ := 0.0
    let integrin : ℝ := 0.0
    initElemProteins s0 s1 s2 eCad pCad integrin ns (elements.getD eIdx [])) nodes

def cellCellSetup (membraneIdx : Option ℕ)
    (nodes : List (List ℝ)) (elements : List (List ℕ)) :
    Except Unit (List (List ℝ) × List ℕ) :=
  let numAttributes := (nodes.getD 0 []).length
  if nodes.all (fun a => a.length = numAttributes) then
    let proteinLocations := [numAttributes, numAttributes + 1, numAttributes + 2]
    let extended := nodes.map (fun a => a ++ [0.0, 0.0, 0.0])
    Except.ok (initializeProteinLevels membraneIdx numAttributes (numAttributes + 1)
      (numAttributes + 2) extended elements, proteinLocations)
  else Except.error ()

/-
Spectral Navier-Stokes pressure solve
(`ImmersedBoundarySimulationModifier::SolveNavierStokesSpectral`): the
pressure denominator and the spectral pressure with its four gauge/Nyquist
zero assignments, over the sine tables of `SetupConstantMemberVariables`.
-/

/-- Grid spacing `1.0 / mNumGridPts` from `SetupConstantMemberVariables`. -/
noncomputable def gridSpacing (numGridPts : ℕ) : ℝ := 1 / numGridPts

/-- The table `mSin2X[x] = sin(2 * pi * x * gridSpacing)`. -/

noncomputable def sin2Tab (numGridPts : ℕ) (x : ℕ) : ℝ :=
  Real.sin (2 * Real.pi * x * gridSpacing numGridPts)

/-- The pressure denominator of `SolveNavierStokesSpectral`:
`(s2x^2/dx^2 + s2y^2/dy^2) * (dt/Re)`. -/

noncomputable def pressureDenominator (nx ny : ℕ) (dt reynolds : ℝ) (y x : ℕ) : ℝ :=
  ((sin2Tab nx x * sin2Tab nx x / (gridSpacing nx * gridSpacing nx)) +
    (sin2Tab ny y * sin2Tab ny y / (gridSpacing ny * gridSpacing ny))) * (dt / reynolds)

/-- The raw spectral pressure before the gauge/Nyquist overwrites:
`p_hat = -i*(s2x*VelX_hat/dx + s2y*VelY_hat/dy) / denominator`. -/

noncomputable def pHatRaw (nx ny : ℕ) (dt reynolds : ℝ)
    (velXhat velYhat : ℕ → ℕ → ℂ) (y x : ℕ) : ℂ :=
  (-Complex.I * ((sin2Tab nx x : ℂ) * velXhat y x / (gridSpacing nx : ℂ) +
      (sin2Tab ny y : ℂ) * velYhat y x / (gridSpacing ny : ℂ))) /
    (pressureDenominator nx ny dt reynolds y x : ℂ)

/-- The spectral pressure after the four zero assignments
`p_hat[0][0] = p_hat[0][nx/2] = p_hat[ny/2][nx/2] = p_hat[ny/2][0] = 0`. -/

noncomputable def pHat (nx ny : ℕ) (dt reynolds : ℝ)
    (velXhat velYhat : ℕ → ℕ → ℂ) (y x : ℕ) : ℂ :=
  if (y, x) = (ny / 2, 0) then 0
  else if (y, x) = (ny / 2, nx / 2) then 0
  else if (y, x) = (0, nx / 2) then 0
  else if (y, x) = (0, 0) then 0
  else pHatRaw nx ny dt reynolds velXhat velYhat y x

/-
Upwind advection (`ImmersedBoundarySimulationModifier::UpwindScheme`).  The
source updates `prev_x`/`next_x` inside the inner loop (and `prev_y`/`next_y`
per row) instead of computing `(x +- 1 + N) mod N` inline; the embedding
reproduces that loop-carried state exactly, threading `prev_x`/`next_x`
across rows, and is proved pointwise equal to the spec's inline-mod formula.
-/

/-- Body of the `UpwindScheme` inner loop for the `out_x` grid, parametrized
by the loop-carried neighbour indices `px (prev_x), nxi (next_x), py, nyi`. -/
noncomputable def upwindCellX (inx iny : ℕ → ℕ → ℝ) (dx dy : ℝ)
    (y x px nxi py nyi : ℕ) : ℝ :=
  (if inx y x > 0 then inx y x * (inx y x - inx y px) / dx
   else inx y x * (inx y nxi - inx y x) / dx) +
  (if iny y x > 0 then iny y x * (inx y x - inx py x) / dy
   else iny y x * (inx nyi x - inx y x) / dy)

/-- Body of the `UpwindScheme` inner loop for the `out_y` grid. -/

noncomputable def upwindCellY (inx iny : ℕ → ℕ → ℝ) (dx dy : ℝ)
    (y x px nxi py nyi : ℕ) : ℝ :=
  (if inx y x > 0 then inx y x * (iny y x - iny y px) / dx
   else inx y x * (iny y nxi - iny y x) / dx) +
  (if iny y x > 0 then iny y x * (iny y x - iny py x) / dy
   else iny y x * (iny nyi x - iny y x) / dy)

/-- One row of `UpwindScheme`: iterates the remaining `r` cells starting at
column `x`, threading `prev_x`/`next_x` exactly as the source increments them
(modulo `N` at the end of each inner iteration); returns the row's cells
together with the final `prev_x`/`next_x`. -/

noncomputable def upwindRowAux (N : ℕ) (inx iny : ℕ → ℕ → ℝ) (dx dy : ℝ)
    (y py nyi : ℕ) : ℕ → ℕ → ℕ → ℕ → List (ℝ × ℝ) × ℕ × ℕ
  | px, nxi, _, 0 => ([], px, nxi)
  | px, nxi, x, r + 1 =>
    let rest := upwindRowAux N inx iny dx dy y py nyi ((px + 1) % N) ((nxi + 1) % N)
      (x + 1) r
    ((upwindCellX inx iny dx dy y x px nxi py nyi,
      upwindCellY inx iny dx dy y x px nxi py nyi) :: rest.1, rest.2)

/-- The outer loop of `UpwindScheme`: processes the remaining `r` rows
starting at row `y`, threading `prev_x`/`next_x` across rows (as the source
does, since they are declared outside the row loop) and `prev_y`/`next_y`
per row. -/

noncomputable def upwindRowsAux (N M : ℕ) (inx iny : ℕ → ℕ → ℝ) (dx dy : ℝ) :
    ℕ → ℕ → ℕ → ℕ → ℕ → ℕ → List (List (ℝ × ℝ))
  | _, _, _, _, _, 0 => []
  | px, nxi, py, nyi, y, r + 1 =>
    let row := upwindRowAux N inx iny dx dy y py nyi px nxi 0 N
    row.1 :: upwindRowsAux N M inx iny dx dy row.2.1 row.2.2 ((py + 1) % M)
      ((nyi + 1) % M) (y + 1) r

/-- `ImmersedBoundarySimulationModifier::UpwindScheme` on an `M x N` grid:
`prev_x, next_x` start at `N-1, 1` and `prev_y, next_y` at `M-1, 1`. -/

noncomputable def upwindScheme (N M : ℕ) (inx iny : ℕ → ℕ → ℝ) (dx dy : ℝ) :
    List (List (ℝ × ℝ)) :=
  upwindRowsAux N M inx iny dx dy (N - 1) 1 (M - 1) 1 0 M

/-- The first-order upwind advection formula for the x-velocity as the spec
writes it, with periodic neighbour indices computed inline. -/

noncomputable def upwindSpecX (N M : ℕ) (inx iny : ℕ → ℕ → ℝ) (dx dy : ℝ)
    (y x : ℕ) : ℝ :=
  (if inx y x > 0 then inx y x * (inx y x - inx y ((x + N - 1) % N)) / dx
   else inx y x * (inx y ((x + 1) % N) - inx y x) / dx) +
  (if iny y x > 0 then iny y x * (inx y x - inx ((y + M - 1) % M) x) / dy
   else iny y x * (inx ((y + 1) % M) x - inx y x) / dy)

/-- The first-order upwind advection formula for the y-velocity as the spec
writes it, with periodic neighbour indices computed inline. -/

noncomputable def upwindSpecY (N M : ℕ) (inx iny : ℕ → ℕ → ℝ) (dx dy : ℝ)
    (y x : ℕ) : ℝ :=
  (if inx y x > 0 then inx y x * (iny y x - iny y ((x + N - 1) % N)) / dx
   else inx y x * (iny y ((x + 1) % N) - iny y x) / dx) +
  (if iny y x > 0 then iny y x * (iny y x - iny ((y + M - 1) % M) x) / dy
   else iny y x * (iny ((y + 1) % M) x - iny y x) / dy)

/-
Element division (`ImmersedBoundaryMesh::DivideElement`).  The mesh is
modelled by its node locations and the elements' node-index lists; the four
frontier walks, the stencil collection, the cumulative arc lengths and the
resampling loops follow the source statement by statement (loops over cyclic
index ranges carry explicit fuel equal to the element's node count, which
bounds the number of iterations the C++ loops can perform).
-/

/-- A mesh reduced to the data element division manipulates: the node
locations (by global node index) and the elements' node-index lists. -/
structure MeshState where
  nodes : List (ℝ × ℝ)
  elements : List (List ℕ)

/-- `inner_prod(GetVectorFromAtoB(centroid, node), unit_perp)`. -/

noncomputable def perpendicularDist (centroid loc unitPerp : ℝ × ℝ) : ℝ :=
  (getVectorFromAtoB centroid loc).1 * unitPerp.1 +
    (getVectorFromAtoB centroid loc).2 * unitPerp.2

/-- Move a node onto the half-spacing offset plane:
`new_location -= unit_perp * copysign(fabs(pd) - half_spacing, pd)`. -/

noncomputable def snapNode (nodes : List (ℝ × ℝ)) (idx : ℕ) (unitPerp : ℝ × ℝ)
    (pd half : ℝ) : List (ℝ × ℝ) :=
  nodes.set idx ((nodes.getD idx (0, 0)).1 - unitPerp.1 * copysign (|pd| - half) pd,
                 (nodes.getD idx (0, 0)).2 - unitPerp.2 * copysign (|pd| - half) pd)

/-- One of the four frontier walks of `DivideElement`: starting at element-local
index `i`, while `i` differs from the sentinel `e`, test whether node `i` has
perpendicular distance at least `half` from the centroid; if so snap it and
return its index, else move to `step i`.  The fuel is the element's node count,
which bounds the cyclic distance to the sentinel. -/

noncomputable def divisionWalk (centroid unitPerp : ℝ × ℝ) (half : ℝ)
    (elemNodes : List ℕ) (stepFn : ℕ → ℕ) (e : ℕ) :
    ℕ → ℕ → List (ℝ × ℝ) → Option ℕ × List (ℝ × ℝ)
  | 0, _, nodes => (none, nodes)
  | fuel + 1, i, nodes =>
    if i = e then (none, nodes)
    else
      if |perpendicularDist centroid (nodes.getD (elemNodes.getD i 0) (0, 0)) unitPerp| ≥
          half then
        (some i, snapNode nodes (elemNodes.getD i 0) unitPerp
          (perpendicularDist centroid (nodes.getD (elemNodes.getD i 0) (0, 0)) unitPerp)
          half)
      else
        divisionWalk centroid unitPerp half elemNodes stepFn e fuel (stepFn i) nodes

/-- Collect a daughter location stencil: push the location of the element's
node `idx` and step forward modulo `n` until the sentinel is reached. -/

noncomputable def collectStencil (nodes : List (ℝ × ℝ)) (elemNodes : List ℕ)
    (n sentinel : ℕ) : ℕ → ℕ → List (ℝ × ℝ)
  | 0, _ => []
  | fuel + 1, idx =>
    if idx = sentinel then []
    else nodes.getD (elemNodes.getD idx 0) (0, 0) ::
      collectStencil nodes elemNodes n sentinel fuel ((idx + 1) % n)

/-- Torus distance between consecutive stencil locations. -/

noncomputable def torusDist (a b : ℝ × ℝ) : ℝ :=
  Real.sqrt ((getVectorFromAtoB a b).1 ^ 2 + (getVectorFromAtoB a b).2 ^ 2)

noncomputable def cumulativeAux (prev : ℝ × ℝ) (acc : ℝ) :
    List (ℝ × ℝ) → List ℝ
  | [] => []
  | p :: rest => (acc + torusDist prev p) :: cumulativeAux p (acc + torusDist prev p) rest

/-- The cumulative distances around a stencil: starts at `0.0`, then adds the
torus distance of each consecutive pair. -/

noncomputable def cumulativeDistances : List (ℝ × ℝ) → List ℝ
  | [] => [0]
  | p :: rest => 0 :: cumulativeAux p 0 rest

/-- The `while (location_along_arc > cumulative_distances[last_idx_used + 1])`
advance, with fuel. -/

noncomputable def advanceIdx (cum : List ℝ) (loc : ℝ) : ℕ → ℕ → ℕ
  | 0, last => last
  | fuel + 1, last =>
    if loc > cum.getD (last + 1) 0 then advanceIdx cum loc fuel (last + 1) else last

/-- Linear interpolation along the stencil at arc position `loc`. -/

noncomputable def sampleLocation (stencil : List (ℝ × ℝ)) (cum : List ℝ)
    (last : ℕ) (loc : ℝ) : ℝ × ℝ :=
  ((stencil.getD last (0, 0)).1 + (loc - cum.getD last 0) /
      (cum.getD (last + 1) 0 - cum.getD last 0) *
      (getVectorFromAtoB (stencil.getD last (0, 0)) (stencil.getD (last + 1) (0, 0))).1,
   (stencil.getD last (0, 0)).2 + (loc - cum.getD last 0) /
      (cum.getD (last + 1) 0 - cum.getD last 0) *
      (getVectorFromAtoB (stencil.getD last (0, 0)) (stencil.getD (last + 1) (0, 0))).2)

/-- Move the existing element nodes onto the daughter-A samples, threading
`last_idx_used` across iterations as the source does. -/

noncomputable def moveNodesToDaughterA (elemNodes : List ℕ)
    (stencil : List (ℝ × ℝ)) (cum : List ℝ) (target : ℝ) (numNodes : ℕ)
    (nodes : List (ℝ × ℝ)) : ℕ × List (ℝ × ℝ) :=
  (List.range numNodes).foldl (fun st (nodeIdx : ℕ) =>
    let last := advanceIdx cum ((nodeIdx : ℝ) * target) cum.length st.1
    (last, st.2.set (elemNodes.getD nodeIdx 0)
      (sampleLocation stencil cum last ((nodeIdx : ℝ) * target)))) (0, nodes)

/-- Create the daughter-B nodes at the resampled positions, appending each new
node to the mesh's node list. -/

noncomputable def createDaughterBNodes (stencil : List (ℝ × ℝ)) (cum : List ℝ)
    (target : ℝ) (numNodes : ℕ) (nodes : List (ℝ × ℝ)) : ℕ × List (ℝ × ℝ) :=
  (List.range numNodes).foldl (fun st (nodeIdx : ℕ) =>
    let last := advanceIdx cum ((nodeIdx : ℝ) * target) cum.length st.1
    (last, st.2 ++ [sampleLocation stencil cum last ((nodeIdx : ℝ) * target)])) (0, nodes)

/-- The four frontier walks of `DivideElement`, in source order: forward from
`start_a` to `end_a`, backward from `end_a` to the updated `start_a`, forward
from `start_b` to `end_b`, backward from `end_b` to the updated `start_b`.
Returns the four found indices (`none` meaning the walk exhausted its range
without finding a node, so its `no_node_satisfied_condition` flag stayed
true) and the node list after the snaps performed by the successful walks. -/
noncomputable def divisionWalksPhase (centroid unitPerp : ℝ × ℝ) (half : ℝ)
    (elemNodes : List ℕ) (nodeAIndex nodeBIndex : ℕ) (nodes : List (ℝ × ℝ)) :
    (Option ℕ × Option ℕ × Option ℕ × Option ℕ) × List (ℝ × ℝ) :=
  let numNodes := elemNodes.length
  let startA := (nodeAIndex + 1) % numNodes
  let endA := nodeBIndex
  let startB := (nodeBIndex + 1) % numNodes
  let endB := nodeAIndex
  let w1 := divisionWalk centroid unitPerp half elemNodes
    (fun i => (i + 1) % numNodes) endA numNodes startA nodes
  let startA2 := w1.1.getD startA
  let w2 := divisionWalk centroid unitPerp half elemNodes
    (fun i => (i + numNodes - 1) % numNodes) startA2 numNodes endA w1.2
  let w3 := divisionWalk centroid unitPerp half elemNodes
    (fun i => (i + 1) % numNodes) endB numNodes startB w2.2
  let startB2 := w3.1.getD startB
  let w4 := divisionWalk centroid unitPerp half elemNodes
    (fun i => (i + numNodes - 1) % numNodes) startB2 numNodes endB w3.2
  ((w1.1, w2.1, w3.1, w4.1), w4.2)

/-- `ImmersedBoundaryMesh::DivideElement` restricted to node locations and
element membership (node/element attributes, regions, corners and fluid
sources are not represented in `MeshState`).  Returns the mesh state after
the call together with either the new element's index or the
division-spacing error. -/
noncomputable def divideElement (state : MeshState)
    (elemIdx nodeAIndex nodeBIndex : ℕ) (centroid axisOfDivision : ℝ × ℝ)
    (elementDivisionSpacing : ℝ) : MeshState × Except Unit ℕ :=
  let halfSpacing := 0.5 * elementDivisionSpacing
  let axisNorm := Real.sqrt (axisOfDivision.1 ^ 2 + axisOfDivision.2 ^ 2)
  let unitAxis := (axisOfDivision.1 / axisNorm, axisOfDivision.2 / axisNorm)
  let unitPerp := (-unitAxis.2, unitAxis.1)
  let elemNodes := state.elements.getD elemIdx []
  let numNodes := elemNodes.length
  let wres := divisionWalksPhase centroid unitPerp halfSpacing elemNodes
    nodeAIndex nodeBIndex state.nodes
  if wres.1.1.isNone ∨ wres.1.2.1.isNone ∨ wres.1.2.2.1.isNone ∨
      wres.1.2.2.2.isNone then
    ({ nodes := wres.2, elements := state.elements }, Except.error ())
  else
    let startA2 := wres.1.1.getD ((nodeAIndex + 1) % numNodes)
    let endA2 := wres.1.2.1.getD nodeBIndex
    let startB2 := wres.1.2.2.1.getD ((nodeBIndex + 1) % numNodes)
    let endB2 := wres.1.2.2.2.getD nodeAIndex
    let stencilA0 := collectStencil wres.2 elemNodes numNodes
      ((endA2 + 1) % numNodes) numNodes startA2
    let stencilA := stencilA0 ++ [stencilA0.getD 0 (0, 0)]
    let stencilB0 := collectStencil wres.2 elemNodes numNodes
      ((endB2 + 1) % numNodes) numNodes startB2
    let stencilB := stencilB0 ++ [stencilB0.getD 0 (0, 0)]
    let cumA := cumulativeDistances stencilA
    let cumB := cumulativeDistances stencilB
    let targetA := cumA.getLastD 0 / (numNodes : ℝ)
    let targetB := cumB.getLastD 0 / (numNodes : ℝ)
    let moved := moveNodesToDaughterA elemNodes stencilA cumA targetA numNodes wres.2
    let created := createDaughterBNodes stencilB cumB targetB numNodes moved.2
    ({ nodes := created.2,
       elements := state.elements ++ [List.range' moved.2.length numNodes] },
     Except.ok state.elements.length)

/-- Concrete hexagonal element for the C3 counterexample: only node 0 is far
enough from the division axis, so walk 1 succeeds (snapping node 0) and walk 2
fails, triggering the division-spacing error after the mesh was modified. -/
noncomputable def c3Nodes : List (ℝ × ℝ) :=
  [(0.1, 0.35), (0.15, 0.2), (0.2, 0.25), (0.25, 0.2), (0.3, 0.2), (0.35, 0.2)]

/-- Concrete hexagonal element on which `DivideElement` succeeds: each of the
four frontier walks finds its node immediately. -/
noncomputable def c9Nodes : List (ℝ × ℝ) :=
  [(0.1, 0.35), (0.15, 0.2), (0.2, 0.32), (0.25, 0.05), (0.3, 0.2), (0.35, 0.06)]

/-
Force spreading (`ImmersedBoundarySimulationModifier::PropagateForcesToFluidGrid`).
Each node deposits its force onto a 4x4 stencil of fluid-grid points with
cosine-kernel weights; a stencil whose first index is `-1` is wrapped by
`first_idx += mNumGridPts` while reusing the distances computed before the
bump.  The grid is modelled as a function `ℤ x ℤ → ℝ` updated pointwise.
-/

/-- The regularised delta kernel `Delta1D(dist, spacing) =
(0.25*(1 + cos(pi*dist/(2*spacing))))/spacing`. -/
noncomputable def Delta1D (dist spacing : ℝ) : ℝ :=
  (0.25 * (1.0 + Real.cos (Real.pi * dist / (2 * spacing)))) / spacing

/-- A fluid force grid, indexed `[y][x]` by integers (only the box
`[0,M) x [0,N)` is populated). -/
def depositForce (g : ℤ × ℤ → ℝ) (p : ℤ × ℤ) (w : ℝ) : ℤ × ℤ → ℝ :=
  Function.update g p (g p + w)

/-- Sum of a grid over the index box `[0,M) x [0,N)`. -/

noncomputable def gridSum (M N : ℕ) (g : ℤ × ℤ → ℝ) : ℝ :=
  ∑ p ∈ Finset.Ico (0 : ℤ) (M : ℤ) ×ˢ Finset.Ico (0 : ℤ) (N : ℤ), g p

/-- The body of the inner (`y_idx`) loop of `PropagateForcesToFluidGrid`:
compute `dist_y` from the current `first_idx_y`, apply the wrap-around bump
if `first_idx_y == -1`, then add the delta-weighted force to both grids at
the modular index. -/
noncomputable def spreadInner (N M : ℕ) (dx dy nx ny fx fy dl distX : ℝ)
    (fix : ℤ) (xIdx : ℕ) (st : ℤ × (ℤ × ℤ → ℝ) × (ℤ × ℤ → ℝ)) (yIdx : ℕ) :
    ℤ × (ℤ × ℤ → ℝ) × (ℤ × ℤ → ℝ) :=
  let distY := |((st.1 + (yIdx : ℤ) : ℤ) : ℝ) * dy - ny|
  let fiy := if st.1 = -1 then st.1 + M else st.1
  let p : ℤ × ℤ := ((fiy + yIdx) % M, (fix + xIdx) % N)
  (fiy,
   depositForce st.2.1 p (fx * Delta1D distX dx * Delta1D distY dy * dl),
   depositForce st.2.2 p (fy * Delta1D distX dx * Delta1D distY dy * dl))

/-- The body of the outer (`x_idx`) loop: compute `dist_x` from the current
`first_idx_x`, bump it if `-1`, then run the four inner iterations. -/

noncomputable def spreadOuter (N M : ℕ) (dx dy nx ny fx fy dl : ℝ)
    (st : ℤ × ℤ × (ℤ × ℤ → ℝ) × (ℤ × ℤ → ℝ)) (xIdx : ℕ) :
    ℤ × ℤ × (ℤ × ℤ → ℝ) × (ℤ × ℤ → ℝ) :=
  let distX := |((st.1 + (xIdx : ℤ) : ℤ) : ℝ) * dx - nx|
  let fix := if st.1 = -1 then st.1 + N else st.1
  let inner := (List.range 4).foldl (spreadInner N M dx dy nx ny fx fy dl distX fix xIdx)
    st.2
  (fix, inner)

/-- `PropagateForcesToFluidGrid` restricted to a single node at `(nx, ny)`
carrying applied force `(fx, fy)`: the 4x4 spreading loop over both force
grids, with `first_idx_x = floor(nx/dx) - 1` and
`first_idx_y = floor(ny/dy) - 1`. -/

noncomputable def propagateForceOfNode (N M : ℕ) (dx dy nx ny fx fy dl : ℝ)
    (gX gY : ℤ × ℤ → ℝ) : (ℤ × ℤ → ℝ) × (ℤ × ℤ → ℝ) :=
  ((List.range 4).foldl (spreadOuter N M dx dy nx ny fx fy dl)
    (⌊nx / dx⌋ - 1, ⌊ny / dy⌋ - 1, gX, gY)).2.2

/-- The sum of the four `dist_y` kernel weights generated by one inner loop
entered with `first_idx_y = fiy`: iteration 0 measures from the unbumped
index, iterations 1-3 from the bumped one. -/

noncomputable def yWeightSum (M : ℕ) (dy ny : ℝ) (fiy : ℤ) : ℝ :=
  Delta1D |(fiy : ℝ) * dy - ny| dy +
    Delta1D |(((if fiy = -1 then fiy + M else fiy) : ℤ) : ℝ) * dy + 1 * dy - ny| dy +
    Delta1D |(((if fiy = -1 then fiy + M else fiy) : ℤ) : ℝ) * dy + 2 * dy - ny| dy +
    Delta1D |(((if fiy = -1 then fiy + M else fiy) : ℤ) : ℝ) * dy + 3 * dy - ny| dy

lemma vectorFromAtoBComp_spec (a b : ℝ) (ha0 : 0 ≤ a) (ha1 : a < 1)
    (hb0 : 0 ≤ b) (hb1 : b < 1) :
    vectorFromAtoBComp a b =
      (if 0.5 < |b - a| then
        (if a < b then -(1 - |b - a|) else (1 - |b - a|)) else b - a) ∧
    |vectorFromAtoBComp a b| ≤ 0.5 ∧
    Int.fract (a + vectorFromAtoBComp a b) = b := by
  have habs : |b - a| < 1 := by
    rw [abs_lt]; constructor <;> linarith
  by_cases h : 0.5 < |b - a|
  · have h1 : |b - a| - 1.0 < 0 := by linarith
    have h2 : |(|b - a| - 1.0)| = 1.0 - |b - a| := by
      rw [abs_of_neg h1]; ring
    by_cases hab : a < b
    · have hpos : 0 < b - a := by linarith
      have habv : |b - a| = b - a := abs_of_pos hpos
      have hneg : -(b - a) < 0 := by linarith
      have hval : vectorFromAtoBComp a b = -(1 - |b - a|) := by
        unfold vectorFromAtoBComp copysign
        rw [if_pos h, if_pos hneg, h2]
        norm_num
      rw [hval]
      refine ⟨by rw [if_pos h, if_pos hab], ?_, ?_⟩
      · rw [abs_of_nonpos (by linarith)]
        linarith
      · rw [habv]
        have heq : a + -(1 - (b - a)) = (b - 1 : ℝ) := by ring
        rw [heq]
        have hcast : (b - 1 : ℝ) = b + ((-1 : ℤ) : ℝ) := by push_cast; ring
        rw [hcast, Int.fract_add_int]
        exact Int.fract_eq_self.mpr ⟨hb0, hb1⟩
    · have hne : b - a ≠ 0 := by
        intro h0
        rw [h0] at h
        norm_num at h
      have hneg2 : b - a < 0 := by
        rcases lt_or_eq_of_le (le_of_not_lt hab) with h' | h'
        · linarith
        · exact absurd (by rw [h']; ring) hne
      have habv : |b - a| = a - b := by rw [abs_of_neg hneg2]; ring
      have hpos2 : ¬(-(b - a) < 0) := by push_neg; linarith
      have hval : vectorFromAtoBComp a b = (1 - |b - a|) := by
        unfold vectorFromAtoBComp copysign
        rw [if_pos h, if_neg hpos2, h2]
        norm_num
      rw [hval]
      refine ⟨by rw [if_pos h, if_neg hab], ?_, ?_⟩
      · rw [abs_of_nonneg (by linarith)]
        linarith
      · rw [habv]
        have heq : a + (1 - (a - b)) = (b + 1 : ℝ) := by ring
        rw [heq]
        have hcast : (b + 1 : ℝ) = b + ((1 : ℤ) : ℝ) := by push_cast; ring
        rw [hcast, Int.fract_add_int]
        exact Int.fract_eq_self.mpr ⟨hb0, hb1⟩
  · have hle : |b - a| ≤ 0.5 := le_of_not_lt h
    have hval : vectorFromAtoBComp a b = b - a := by
      unfold vectorFromAtoBComp
      rw [if_neg h]
    rw [hval]
    refine ⟨by rw [if_neg h], hle, ?_⟩
    have heq : a + (b - a) = b := by ring
    rw [heq]
    exact Int.fract_eq_self.mpr ⟨hb0, hb1⟩

/-- C2: for points with components in `[0,1)`, each component of
`GetVectorFromAtoB(A,B)` is `sign(A-B) * (1 - |B-A|)` when `|B-A| > 0.5` and
`B-A` otherwise; both components have absolute value at most `0.5`, hence the
Euclidean norm is at most `sqrt(0.5^2 + 0.5^2)`, and adding the result to `A`
and reducing modulo 1 recovers `B` in each component. -/

theorem c2_getVectorFromAtoB_correct (A B : ℝ × ℝ)
    (hA : 0 ≤ A.1 ∧ A.1 < 1 ∧ 0 ≤ A.2 ∧ A.2 < 1)
    (hB : 0 ≤ B.1 ∧ B.1 < 1 ∧ 0 ≤ B.2 ∧ B.2 < 1) :
    ((getVectorFromAtoB A B).1 =
      (if 0.5 < |B.1 - A.1| then
        (if A.1 < B.1 then -(1 - |B.1 - A.1|) else (1 - |B.1 - A.1|))
       else B.1 - A.1) ∧
     (getVectorFromAtoB A B).2 =
      (if 0.5 < |B.2 - A.2| then
        (if A.2 < B.2 then -(1 - |B.2 - A.2|) else (1 - |B.2 - A.2|))
       else B.2 - A.2)) ∧
    (|(getVectorFromAtoB A B).1| ≤ 0.5 ∧ |(getVectorFromAtoB A B).2| ≤ 0.5) ∧
    Real.sqrt ((getVectorFromAtoB A B).1 ^ 2 + (getVectorFromAtoB A B).2 ^ 2) ≤
      Real.sqrt (0.5 ^ 2 + 0.5 ^ 2) ∧
    (Int.fract (A.1 + (getVectorFromAtoB A B).1) = B.1 ∧
     Int.fract (A.2 + (getVectorFromAtoB A B).2) = B.2) := by
  obtain ⟨ha10, ha11, ha20, ha21⟩ := hA
  obtain ⟨hb10, hb11, hb20, hb21⟩ := hB
  obtain ⟨e1, l1, f1⟩ := vectorFromAtoBComp_spec A.1 B.1 ha10 ha11 hb10 hb11
  obtain ⟨e2, l2, f2⟩ := vectorFromAtoBComp_spec A.2 B.2 ha20 ha21 hb20 hb21
  refine ⟨⟨e1, e2⟩, ⟨l1, l2⟩, ?_, f1, f2⟩
  apply Real.sqrt_le_sqrt
  have s1 : (getVectorFromAtoB A B).1 ^ 2 ≤ (0.5 : ℝ) ^ 2 := by
    rw [← sq_abs]
    exact pow_le_pow_left₀ (abs_nonneg _) l1 2
  have s2 : (getVectorFromAtoB A B).2 ^ 2 ≤ (0.5 : ℝ) ^ 2 := by
    rw [← sq_abs]
    exact pow_le_pow_left₀ (abs_nonneg _) l2 2
  linarith

/-- Witness for C2 at `A = (0.9, 0.2)`, `B = (0.1, 0.3)`. -/

theorem c2_witness :
    (0 ≤ (0.9:ℝ) ∧ (0.9:ℝ) < 1 ∧ 0 ≤ (0.2:ℝ) ∧ (0.2:ℝ) < 1) ∧
    (Int.fract ((0.9:ℝ) + (getVectorFromAtoB (0.9, 0.2) (0.1, 0.3)).1) = 0.1 ∧
     Int.fract ((0.2:ℝ) + (getVectorFromAtoB (0.9, 0.2) (0.1, 0.3)).2) = 0.3) :=
  ⟨⟨by norm_num, by norm_num, by norm_num, by norm_num⟩,
    (c2_getVectorFromAtoB_correct (0.9, 0.2) (0.1, 0.3)
      ⟨by norm_num, by norm_num, by norm_num, by norm_num⟩
      ⟨by norm_num, by norm_num, by norm_num, by norm_num⟩).2.2.2⟩

/-- C10: in the degenerate branch of `GetShortAxisOfElement`, for every random
draw `r ∈ [0,1)` the returned vector `(r, sqrt(1 - r*r))` has Euclidean norm 1
and both components non-negative: it always lies in the closed first quadrant
of the unit circle. -/

theorem c10_shortAxisDegenerate_firstQuadrant (r : ℝ) (h0 : 0 ≤ r) (h1 : r < 1) :
    Real.sqrt ((shortAxisDegenerate r).1 ^ 2 + (shortAxisDegenerate r).2 ^ 2) = 1 ∧
    0 ≤ (shortAxisDegenerate r).1 ∧ 0 ≤ (shortAxisDegenerate r).2 := by
  have hrr : 0 ≤ 1.0 - r * r := by nlinarith
  refine ⟨?_, h0, Real.sqrt_nonneg _⟩
  unfold shortAxisDegenerate
  have hsq : Real.sqrt (1.0 - r * r) ^ 2 = 1.0 - r * r := Real.sq_sqrt hrr
  simp only
  rw [hsq]
  have : r ^ 2 + (1.0 - r * r) = 1 := by ring
  rw [this, Real.sqrt_one]

/-- Witness for C10 at `r = 1/2`. -/

theorem c10_witness :
    (0 ≤ (1/2 : ℝ) ∧ (1/2 : ℝ) < 1) ∧
    (Real.sqrt ((shortAxisDegenerate (1/2)).1 ^ 2 +
        (shortAxisDegenerate (1/2)).2 ^ 2) = 1 ∧
      0 ≤ (shortAxisDegenerate (1/2)).1 ∧ 0 ≤ (shortAxisDegenerate (1/2)).2) :=
  ⟨⟨by norm_num, by norm_num⟩,
    c10_shortAxisDegenerate_firstQuadrant (1/2) (by norm_num) (by norm_num)⟩

/-- If the two components are within 0.5 of each other no wrap occurs. -/

lemma vectorFromAtoBComp_of_small (a b : ℝ) (h : |b - a| ≤ 0.5) :
    vectorFromAtoBComp a b = b - a := by
  unfold vectorFromAtoBComp
  rw [if_neg (not_lt.mpr h)]

/-- C8: whenever the two elements of a node pair have equal average node
spacings, the force the cell-cell interaction adds to node a and the force it
adds to node b are exact negatives (componentwise sum zero), for both the
linear spring and the Morse potential laws; pairs failing the interaction
guards add zero to both nodes, so every pair is covered. -/
theorem c8_cellCell_antisymmetric (springConst restLength intrinsicSpacing
    interactionDistance : ℝ) (isLinear : Bool) (elemA elemB : ℕ)
    (locA locB : ℝ × ℝ) (spacingA spacingB : ℝ)
    (eCadA pCadA integrinA eCadB pCadB integrinB : ℝ)
    (hspacing : spacingA = spacingB) :
    (cellCellPairForces springConst restLength intrinsicSpacing
        interactionDistance isLinear elemA elemB locA locB spacingA spacingB
        eCadA pCadA integrinA eCadB pCadB integrinB).1.1 +
      (cellCellPairForces springConst restLength intrinsicSpacing
        interactionDistance isLinear elemA elemB locA locB spacingA spacingB
        eCadA pCadA integrinA eCadB pCadB integrinB).2.1 = 0 ∧
    (cellCellPairForces springConst restLength intrinsicSpacing
        interactionDistance isLinear elemA elemB locA locB spacingA spacingB
        eCadA pCadA integrinA eCadB pCadB integrinB).1.2 +
      (cellCellPairForces springConst restLength intrinsicSpacing
        interactionDistance isLinear elemA elemB locA locB spacingA spacingB
        eCadA pCadA integrinA eCadB pCadB integrinB).2.2 = 0 := by
  subst hspacing
  constructor <;>
    (unfold cellCellPairForces
     dsimp only
     split_ifs <;> dsimp only <;> ring)

/-- Witness for C8: a concrete interacting pair with equal spacings. -/

theorem c8_witness :
    (0.1 : ℝ) = 0.1 ∧
    (cellCellPairForces 1000 0.15 0.1 0.6 true 0 1 (0, 0) (0.3, 0.4) 0.1 0.1
        1 0 0 1 0 0).1.1 +
      (cellCellPairForces 1000 0.15 0.1 0.6 true 0 1 (0, 0) (0.3, 0.4) 0.1 0.1
        1 0 0 1 0 0).2.1 = 0 :=
  ⟨rfl, (c8_cellCell_antisymmetric 1000 0.15 0.1 0.6 true 0 1 (0, 0) (0.3, 0.4)
    0.1 0.1 1 0 0 1 0 0 rfl).1⟩

/-- Counterexample to C4 as stated: on edge 0 of the concrete element (node 0
lateral, node 1 basal), with `k = 1`, `l = 0.1`, the source computes the force
`(-6/25, -8/25)` (unstiffened, since node 0 is lateral) while the claim's
"either endpoint" formula gives `(-3/5, -4/5)` (stiffened, since node 1 is
basal).  The two disagree, refuting the claim as stated. -/
theorem c4_counterexample :
    elasticForceToNextNode 3 c4Locs c4Region 1 0.1 0 ≠
      claimEdgeForceEitherEndpoint 3 c4Locs c4Region 1 0.1 0 := by
  have hv1 : vectorFromAtoBComp ((3:ℝ)/10) 0 = -(3/10) := by
    rw [vectorFromAtoBComp_of_small _ _ (abs_le.mpr ⟨by norm_num, by norm_num⟩)]
    norm_num
  have hv2 : vectorFromAtoBComp ((2:ℝ)/5) 0 = -(2/5) := by
    rw [vectorFromAtoBComp_of_small _ _ (abs_le.mpr ⟨by norm_num, by norm_num⟩)]
    norm_num
  have hsq : ((-(3/10):ℝ))^2 + ((-(2/5):ℝ))^2 = (1/2)^2 := by norm_num
  have hcode : elasticForceToNextNode 3 c4Locs c4Region 1 0.1 0 = (-(6/25), -(8/25)) := by
    unfold elasticForceToNextNode
    simp only [c4Locs, c4Region, getVectorFromAtoB]
    norm_num
    rw [hv1, hv2, hsq, Real.sqrt_sq (by norm_num : (0:ℝ) ≤ 1/2)]
    norm_num
  have hclaim : claimEdgeForceEitherEndpoint 3 c4Locs c4Region 1 0.1 0 = (-(3/5), -(4/5)) := by
    unfold claimEdgeForceEitherEndpoint
    simp only [c4Locs, c4Region, getVectorFromAtoB]
    norm_num
    rw [hv1, hv2, hsq, Real.sqrt_sq (by norm_num : (0:ℝ) ≤ 1/2)]
    norm_num
  rw [hcode, hclaim]
  intro h
  have h1 := congrArg Prod.fst h
  norm_num at h1

/-- C4 (amended): for every element, every edge force is the Hooke spring
`F_i = k·(|d|-l)·dhat` with `d = vector_from(next, this)`, where `k` and `l`
are multiplied by 10 and 4 exactly when node `i` (the first endpoint of the
edge) has region apical (1) or basal (0); the net force added to node `i` is
`F_(i-1) - F_i` with indices modulo the element's node count. -/

theorem c4_membraneForce_correct (n : ℕ) (locs : ℕ → ℝ × ℝ) (region : ℕ → ℕ)
    (springConstant restLength : ℝ) (i : ℕ) :
    membraneAggregateForce n locs region springConstant restLength i =
      ((claimEdgeForceFirstEndpoint n locs region springConstant restLength
          ((i + n - 1) % n)).1 -
        (claimEdgeForceFirstEndpoint n locs region springConstant restLength i).1,
       (claimEdgeForceFirstEndpoint n locs region springConstant restLength
          ((i + n - 1) % n)).2 -
        (claimEdgeForceFirstEndpoint n locs region springConstant restLength i).2) := by
  have he : ∀ j, elasticForceToNextNode n locs region springConstant restLength j
      = claimEdgeForceFirstEndpoint n locs region springConstant restLength j := by
    intro j
    unfold elasticForceToNextNode claimEdgeForceFirstEndpoint
    dsimp only
    split_ifs <;> (rw [Prod.mk.injEq]; constructor <;> ring)
  unfold membraneAggregateForce
  dsimp only
  rw [he, he]

lemma getD_set_self_of_lt {α : Type} (l : List α) (i : ℕ) (a d : α) (h : i < l.length) :
    (l.set i a).getD i d = a := by
  rw [List.getD_eq_getElem?_getD, List.getElem?_set_eq_of_lt a h]
  rfl

lemma getD_set_of_ne {α : Type} (l : List α) (i j : ℕ) (a d : α) (h : i ≠ j) :
    (l.set i a).getD j d = l.getD j d := by
  rw [List.getD_eq_getElem?_getD, List.getElem?_set_ne h, ← List.getD_eq_getElem?_getD]

lemma length_addToSlot (ns : List (List ℝ)) (m s : ℕ) (v : ℝ) :
    (addToSlot ns m s v).length = ns.length := List.length_set ..

lemma innerLength_addToSlot (ns : List (List ℝ)) (m s : ℕ) (v : ℝ) (k : ℕ) :
    ((addToSlot ns m s v).getD k []).length = ((ns.getD k []).length) := by
  unfold addToSlot
  by_cases h : m = k
  · subst h
    by_cases hm : m < ns.length
    · rw [getD_set_self_of_lt _ _ _ _ hm, List.length_set]
    · rw [List.set_eq_of_length_le (le_of_not_lt hm)]
  · rw [getD_set_of_ne _ _ _ _ _ h]

lemma attribVal_addToSlot (ns : List (List ℝ)) (m s' : ℕ) (v : ℝ) (n s : ℕ)
    (hm : m < ns.length) (hs' : s' < (ns.getD m []).length) :
    attribVal (addToSlot ns m s' v) n s =
      if n = m ∧ s = s' then attribVal ns n s + v else attribVal ns n s := by
  unfold attribVal addToSlot
  by_cases hn : n = m
  · subst hn
    rw [getD_set_self_of_lt _ _ _ _ hm]
    by_cases hs : s = s'
    · subst hs
      rw [getD_set_self_of_lt _ _ _ _ hs']
      simp
    · rw [getD_set_of_ne _ _ _ _ _ (fun hss => hs hss.symm)]
      simp [hs]
  · rw [getD_set_of_ne _ _ _ _ _ (fun hnn => hn hnn.symm)]
    simp [hn]

lemma initElemProteins_spec (s0 s1 s2 : ℕ) (eCad pCad integrin : ℝ)
    (h01 : s0 < s1) (h12 : s1 < s2) (elemNodes : List ℕ) :
    ∀ ns : List (List ℝ),
    (∀ m ∈ elemNodes, m < ns.length) →
    (∀ k, k < ns.length → s2 < (ns.getD k []).length) →
    (initElemProteins s0 s1 s2 eCad pCad integrin ns elemNodes).length = ns.length ∧
    (∀ k, ((initElemProteins s0 s1 s2 eCad pCad integrin ns elemNodes).getD k []).length
        = (ns.getD k []).length) ∧
    (∀ n, attribVal (initElemProteins s0 s1 s2 eCad pCad integrin ns elemNodes) n s0 =
      attribVal ns n s0 + eCad * (elemNodes.count n : ℝ)) ∧
    (∀ n, attribVal (initElemProteins s0 s1 s2 eCad pCad integrin ns elemNodes) n s1 =
      attribVal ns n s1 + pCad * (elemNodes.count n : ℝ)) ∧
    (∀ n, attribVal (initElemProteins s0 s1 s2 eCad pCad integrin ns elemNodes) n s2 =
      attribVal ns n s2 + integrin * (elemNodes.count n : ℝ)) := by
  induction elemNodes with
  | nil =>
    intro ns _ _
    refine ⟨rfl, fun k => rfl, fun n => ?_, fun n => ?_, fun n => ?_⟩ <;>
      simp [initElemProteins]
  | cons m rest ih =>
    intro ns hvalid hlen
    have hm : m < ns.length := hvalid m (by simp)
    have hs0 : s0 < (ns.getD m []).length := lt_trans (lt_trans h01 h12) (hlen m hm)
    have hs1 : s1 < (ns.getD m []).length := lt_trans h12 (hlen m hm)
    have hs2 : s2 < (ns.getD m []).length := hlen m hm
    set ns1 := addToSlot ns m s0 eCad with hns1
    set ns2 := addToSlot ns1 m s1 pCad with hns2
    set ns3 := addToSlot ns2 m s2 integrin with hns3
    have hlen1 : ns1.length = ns.length := length_addToSlot ..
    have hlen2 : ns2.length = ns.length := by rw [hns2, length_addToSlot, hlen1]
    have hlen3 : ns3.length = ns.length := by rw [hns3, length_addToSlot, hlen2]
    have hil1 : ∀ k, (ns1.getD k []).length = (ns.getD k []).length :=
      fun k => innerLength_addToSlot ..
    have hil2 : ∀ k, (ns2.getD k []).length = (ns.getD k []).length := by
      intro k; rw [hns2, innerLength_addToSlot, hil1]
    have hil3 : ∀ k, (ns3.getD k []).length = (ns.getD k []).length := by
      intro k; rw [hns3, innerLength_addToSlot, hil2]
    have hstep : initElemProteins s0 s1 s2 eCad pCad integrin ns (m :: rest)
        = initElemProteins s0 s1 s2 eCad pCad integrin ns3 rest := by
      simp [initElemProteins, hns1, hns2, hns3]
    obtain ⟨ihl, ihil, ihv0, ihv1, ihv2⟩ := ih ns3
      (fun m2 hm2 => by rw [hlen3]; exact hvalid m2 (by simp [hm2]))
      (fun k hk => by rw [hil3]; exact hlen k (by rw [← hlen3]; exact hk))
    have hv1 : ∀ n2 s2b, attribVal ns1 n2 s2b =
        if n2 = m ∧ s2b = s0 then attribVal ns n2 s2b + eCad else attribVal ns n2 s2b :=
      fun n2 s2b => attribVal_addToSlot ns m s0 eCad n2 s2b hm hs0
    have hv2 : ∀ n2 s2b, attribVal ns2 n2 s2b =
        if n2 = m ∧ s2b = s1 then attribVal ns1 n2 s2b + pCad else attribVal ns1 n2 s2b := by
      intro n2 s2b
      rw [hns2]
      exact attribVal_addToSlot ns1 m s1 pCad n2 s2b (by rw [hlen1]; exact hm)
        (by rw [hil1]; exact hs1)
    have hv3 : ∀ n2 s2b, attribVal ns3 n2 s2b =
        if n2 = m ∧ s2b = s2 then attribVal ns2 n2 s2b + integrin else attribVal ns2 n2 s2b := by
      intro n2 s2b
      rw [hns3]
      exact attribVal_addToSlot ns2 m s2 integrin n2 s2b (by rw [hlen2]; exact hm)
        (by rw [hil2]; exact hs2)
    rw [hstep]
    have hns0 : s0 ≠ s1 := by omega
    have hns02 : s0 ≠ s2 := by omega
    have hns12 : s1 ≠ s2 := by omega
    refine ⟨by rw [ihl, hlen3], fun k => by rw [ihil, hil3], fun n => ?_, fun n => ?_,
      fun n => ?_⟩
    · have e1 : attribVal ns1 n s0 = attribVal ns n s0 + (if n = m then eCad else 0) := by
        rw [hv1]
        by_cases hnm : n = m
        · rw [if_pos ⟨hnm, rfl⟩, if_pos hnm]
        · rw [if_neg (fun hc => hnm hc.1), if_neg hnm, add_zero]
      have e2 : attribVal ns2 n s0 = attribVal ns1 n s0 := by
        rw [hv2]; exact if_neg (fun hc => hns0 hc.2)
      have e3 : attribVal ns3 n s0 = attribVal ns2 n s0 := by
        rw [hv3]; exact if_neg (fun hc => hns02 hc.2)
      rw [ihv0 n, e3, e2, e1, List.count_cons]
      by_cases hnm : n = m
      · subst hnm; simp; ring
      · have hmn : (m == n) = false := by
          simp only [beq_eq_false_iff_ne, ne_eq]
          exact fun hh => hnm hh.symm
        simp [hmn, hnm]
    · have e1 : attribVal ns1 n s1 = attribVal ns n s1 := by
        rw [hv1]; exact if_neg (fun hc => hns0 hc.2.symm)
      have e2 : attribVal ns2 n s1 = attribVal ns n s1 + (if n = m then pCad else 0) := by
        rw [hv2, e1]
        by_cases hnm : n = m
        · rw [if_pos ⟨hnm, rfl⟩, if_pos hnm]
        · rw [if_neg (fun hc => hnm hc.1), if_neg hnm, add_zero]
      have e3 : attribVal ns3 n s1 = attribVal ns2 n s1 := by
        rw [hv3]; exact if_neg (fun hc => hns12 hc.2)
      rw [ihv1 n, e3, e2, List.count_cons]
      by_cases hnm : n = m
      · subst hnm; simp; ring
      · have hmn : (m == n) = false := by
          simp only [beq_eq_false_iff_ne, ne_eq]
          exact fun hh => hnm hh.symm
        simp [hmn, hnm]
    · have e1 : attribVal ns1 n s2 = attribVal ns n s2 := by
        rw [hv1]; exact if_neg (fun hc => hns02 hc.2.symm)
      have e2 : attribVal ns2 n s2 = attribVal ns n s2 := by
        rw [hv2, e1]; exact if_neg (fun hc => hns12 hc.2.symm)
      have e3 : attribVal ns3 n s2 = attribVal ns n s2 + (if n = m then integrin else 0) := by
        rw [hv3, e2]
        by_cases hnm : n = m
        · rw [if_pos ⟨hnm, rfl⟩, if_pos hnm]
        · rw [if_neg (fun hc => hnm hc.1), if_neg hnm, add_zero]
      rw [ihv2 n, e3, List.count_cons]
      by_cases hnm : n = m
      · subst hnm; simp; ring
      · have hmn : (m == n) = false := by
          simp only [beq_eq_false_iff_ne, ne_eq]
          exact fun hh => hnm hh.symm
        simp [hmn, hnm]

lemma initializeProteinLevels_spec (membraneIdx : Option ℕ) (s0 s1 s2 : ℕ)
    (h01 : s0 < s1) (h12 : s1 < s2) (elements : List (List ℕ)) (nodes : List (List ℝ))
    (hvalid : ∀ e, ∀ m ∈ elements.getD e [], m < nodes.length)
    (hlen : ∀ k, k < nodes.length → s2 < (nodes.getD k []).length) :
    (initializeProteinLevels membraneIdx s0 s1 s2 nodes elements).length = nodes.length ∧
    (∀ n, attribVal (initializeProteinLevels membraneIdx s0 s1 s2 nodes elements) n s0 =
      attribVal nodes n s0 +
        ∑ e ∈ Finset.range elements.length, ((elements.getD e []).count n : ℝ)) ∧
    (∀ n, attribVal (initializeProteinLevels membraneIdx s0 s1 s2 nodes elements) n s1 =
      attribVal nodes n s1) ∧
    (∀ n, attribVal (initializeProteinLevels membraneIdx s0 s1 s2 nodes elements) n s2 =
      attribVal nodes n s2) := by
  have key : ∀ k : ℕ,
      ((List.range k).foldl (fun ns eIdx =>
          initElemProteins s0 s1 s2
            (if some eIdx = membraneIdx then (1.0:ℝ) else 1.0) 0.0 0.0 ns
            (elements.getD eIdx [])) nodes).length = nodes.length ∧
      (∀ j, (((List.range k).foldl (fun ns eIdx =>
          initElemProteins s0 s1 s2
            (if some eIdx = membraneIdx then (1.0:ℝ) else 1.0) 0.0 0.0 ns
            (elements.getD eIdx [])) nodes).getD j []).length = (nodes.getD j []).length) ∧
      (∀ n, attribVal ((List.range k).foldl (fun ns eIdx =>
          initElemProteins s0 s1 s2
            (if some eIdx = membraneIdx then (1.0:ℝ) else 1.0) 0.0 0.0 ns
            (elements.getD eIdx [])) nodes) n s0 =
        attribVal nodes n s0 + ∑ e ∈ Finset.range k, ((elements.getD e []).count n : ℝ)) ∧
      (∀ n, attribVal ((List.range k).foldl (fun ns eIdx =>
          initElemProteins s0 s1 s2
            (if some eIdx = membraneIdx then (1.0:ℝ) else 1.0) 0.0 0.0 ns
            (elements.getD eIdx [])) nodes) n s1 = attribVal nodes n s1) ∧
      (∀ n, attribVal ((List.range k).foldl (fun ns eIdx =>
          initElemProteins s0 s1 s2
            (if some eIdx = membraneIdx then (1.0:ℝ) else 1.0) 0.0 0.0 ns
            (elements.getD eIdx [])) nodes) n s2 = attribVal nodes n s2) := by
    intro k
    induction k with
    | zero => simp
    | succ k ihk =>
      obtain ⟨ihl, ihil, ih0, ih1, ih2⟩ := ihk
      rw [List.range_succ, List.foldl_append]
      set prev := (List.range k).foldl (fun ns eIdx =>
          initElemProteins s0 s1 s2
            (if some eIdx = membraneIdx then (1.0:ℝ) else 1.0) 0.0 0.0 ns
            (elements.getD eIdx [])) nodes with hprev
      simp only [List.foldl_cons, List.foldl_nil, ite_self]
      obtain ⟨sl, sil, sv0, sv1, sv2⟩ := initElemProteins_spec s0 s1 s2 1.0 0.0 0.0 h01 h12
        (elements.getD k []) prev
        (fun m hm => by rw [ihl]; exact hvalid k m hm)
        (fun j hj => by rw [ihil]; exact hlen j (by rw [← ihl]; exact hj))
      refine ⟨by rw [sl, ihl], fun j => by rw [sil, ihil], fun n => ?_, fun n => ?_,
        fun n => ?_⟩
      · rw [sv0 n, ih0 n, Finset.sum_range_succ]; ring
      · rw [sv1 n, ih1 n]; ring
      · rw [sv2 n, ih2 n]; ring
  obtain ⟨kl, _, k0, k1, k2⟩ := key elements.length
  unfold initializeProteinLevels
  exact ⟨kl, k0, k1, k2⟩

/-- C5 (amended): after the cell-cell force's one-time set-up, every node that
belongs to exactly one element - whether or not that element is the membrane
element - has E-cadherin attribute 1, and P-cadherin and Integrin attributes
0.  (`InitializeProteinLevels` assigns `e_cad = 1.0` in both branches of its
membrane test, so membrane nodes are not treated differently.) -/

theorem c5_proteinLevels_amended (membraneIdx : Option ℕ) (nodes : List (List ℝ))
    (elements : List (List ℕ)) (nodesOut : List (List ℝ)) (locs : List ℕ) (n : ℕ)
    (hok : cellCellSetup membraneIdx nodes elements = Except.ok (nodesOut, locs))
    (hn : n < nodes.length)
    (hvalid : ∀ e, ∀ m ∈ elements.getD e [], m < nodes.length)
    (hone : ∑ e ∈ Finset.range elements.length, ((elements.getD e []).count n) = 1) :
    attribVal nodesOut n ((nodes.getD 0 []).length) = 1 ∧
    attribVal nodesOut n ((nodes.getD 0 []).length + 1) = 0 ∧
    attribVal nodesOut n ((nodes.getD 0 []).length + 2) = 0 := by
  unfold cellCellSetup at hok
  by_cases hall : nodes.all (fun a => a.length = (nodes.getD 0 []).length)
  swap
  · rw [if_neg hall] at hok
    exact absurd hok (by simp)
  rw [if_pos hall] at hok
  simp only [Except.ok.injEq, Prod.mk.injEq] at hok
  obtain ⟨hout, -⟩ := hok
  set L := (nodes.getD 0 []).length with hL
  set extended := nodes.map (fun a => a ++ [(0.0:ℝ), 0.0, 0.0]) with hext
  have hextlen : extended.length = nodes.length := List.length_map ..
  have hmapD : ∀ k, k < nodes.length →
      extended.getD k [] = nodes.getD k [] ++ [(0.0:ℝ), 0.0, 0.0] := by
    intro k hk
    rw [hext, List.getD_eq_getElem?_getD, List.getElem?_map,
      List.getElem?_eq_getElem hk, List.getD_eq_getElem?_getD,
      List.getElem?_eq_getElem hk]
    rfl
  have hnodeLen : ∀ k, k < nodes.length → (nodes.getD k []).length = L := by
    intro k hk
    have hmem : nodes.getD k [] ∈ nodes := by
      rw [List.getD_eq_getElem?_getD, List.getElem?_eq_getElem hk]
      exact List.getElem_mem hk
    have := List.all_eq_true.mp hall _ hmem
    simpa using this
  have hinner : ∀ k, k < extended.length → L + 2 < (extended.getD k []).length := by
    intro k hk
    rw [hextlen] at hk
    rw [hmapD k hk, List.length_append, hnodeLen k hk]
    simp
  obtain ⟨_, v0, v1, v2⟩ := initializeProteinLevels_spec membraneIdx L (L + 1) (L + 2)
    (by omega) (by omega) elements extended
    (fun e m hm => by rw [hextlen]; exact hvalid e m hm) hinner
  have hbase : ∀ j, attribVal extended n (L + j) = [(0.0:ℝ), 0.0, 0.0].getD j 0 := by
    intro j
    unfold attribVal
    rw [hmapD n hn, List.getD_append_right _ _ _ _ (by rw [hnodeLen n hn]; omega),
      hnodeLen n hn]
    congr 1
    omega
  rw [hout] at v0 v1 v2
  refine ⟨?_, ?_, ?_⟩
  · have hb0 : attribVal extended n L = 0 := by
      have := hbase 0
      norm_num at this
      simpa using this
    rw [v0 n, hb0, zero_add, ← Nat.cast_sum, hone]
    norm_num
  · have hb1 : attribVal extended n (L + 1) = 0 := by
      have := hbase 1
      norm_num at this
      exact this
    rw [v1 n, hb1]
  · have hb2 : attribVal extended n (L + 2) = 0 := by
      have := hbase 2
      norm_num at this
      exact this
    rw [v2 n, hb2]

/-- Counterexample to C5 as stated: in a mesh whose element 0 is the membrane
element with single node 0 (element 1 owning node 1), the set-up gives node 0
E-cadherin attribute 1, not the 0 the claim asserts for nodes belonging only
to the membrane element (`InitializeProteinLevels` assigns 1.0 in both
branches of its membrane test). -/

theorem c5_counterexample :
    cellCellSetup (some 0) [[], []] [[0], [1]] =
      Except.ok ([[(1:ℝ), 0, 0], [(1:ℝ), 0, 0]], [0, 1, 2]) ∧ (1:ℝ) ≠ 0 := by
  constructor
  · unfold cellCellSetup initializeProteinLevels initElemProteins addToSlot
    norm_num [List.range_succ]
  · norm_num

/-- Witness for C5 (amended) at the concrete two-element mesh. -/

theorem c5_witness :
    cellCellSetup (some 0) [[], []] [[0], [1]] =
      Except.ok ([[(1:ℝ), 0, 0], [(1:ℝ), 0, 0]], [0, 1, 2]) ∧
    (attribVal [[(1:ℝ), 0, 0], [(1:ℝ), 0, 0]] 1
        (([[], []] : List (List ℝ)).getD 0 []).length = 1 ∧
      attribVal [[(1:ℝ), 0, 0], [(1:ℝ), 0, 0]] 1
        ((([[], []] : List (List ℝ)).getD 0 []).length + 1) = 0 ∧
      attribVal [[(1:ℝ), 0, 0], [(1:ℝ), 0, 0]] 1
        ((([[], []] : List (List ℝ)).getD 0 []).length + 2) = 0) := by
  have hok : cellCellSetup (some 0) [[], []] [[0], [1]] =
      Except.ok ([[(1:ℝ), 0, 0], [(1:ℝ), 0, 0]], [0, 1, 2]) := by
    unfold cellCellSetup initializeProteinLevels initElemProteins addToSlot
    norm_num [List.range_succ]
  refine ⟨hok, c5_proteinLevels_amended (some 0) [[], []] [[0], [1]]
    [[(1:ℝ), 0, 0], [(1:ℝ), 0, 0]] [0, 1, 2] 1 hok (by norm_num) ?_ (by decide)⟩
  intro e m hm
  rcases e with _ | _ | e <;> simp_all

lemma sin2Tab_eq_zero_iff (n x : ℕ) (hn : 0 < n) (hx : x < n) :
    sin2Tab n x = 0 ↔ (x = 0 ∨ 2 * x = n) := by
  unfold sin2Tab gridSpacing
  rw [Real.sin_eq_zero_iff]
  have hNne : (n : ℝ) ≠ 0 := Nat.cast_ne_zero.mpr hn.ne'
  constructor
  · rintro ⟨m, hm⟩
    have key : (m : ℝ) * n = 2 * x := by
      field_simp at hm
      nlinarith [Real.pi_ne_zero, Real.pi_pos, hm]
    have hZ : m * (n : ℤ) = 2 * (x : ℤ) := by exact_mod_cast key
    have hx0 : (0 : ℤ) ≤ 2 * (x : ℤ) := by positivity
    have hN1 : (1 : ℤ) ≤ (n : ℤ) := by exact_mod_cast hn
    have hxN : 2 * (x : ℤ) < 2 * (n : ℤ) := by
      have : (x : ℤ) < (n : ℤ) := by exact_mod_cast hx
      omega
    have hm0 : 0 ≤ m := by nlinarith
    have hm2 : m < 2 := by nlinarith
    interval_cases m
    · left
      simp at hZ
      omega
    · right
      rw [one_mul] at hZ
      exact_mod_cast hZ.symm
  · rintro (h | h)
    · exact ⟨0, by rw [h]; simp⟩
    · refine ⟨1, ?_⟩
      have hxpos : 0 < x := by omega
      have hcast : (n : ℝ) = 2 * x := by exact_mod_cast h.symm
      have hxne : (x : ℝ) ≠ 0 := Nat.cast_ne_zero.mpr hxpos.ne'
      rw [hcast]
      field_simp
      ring

/-- C6: with even positive grid dimensions and positive `dt`, `Re`, the
pressure denominator `(dt/Re)*((sin(2*pi*x/nx)/dx)^2 + (sin(2*pi*y/ny)/dy)^2)`
vanishes exactly at the four modes `(0,0), (0,nx/2), (ny/2,0), (ny/2,nx/2)`,
and after the solve's four zero assignments the pressure transform is 0 at
those four modes; hence every other mode divides by a nonzero denominator and
the fatal NumericError condition (zero denominator outside the gauge modes)
is unreachable. -/

theorem c6_pressure_gauge_modes (nx ny : ℕ) (dt reynolds : ℝ)
    (velXhat velYhat : ℕ → ℕ → ℂ)
    (hnx : 0 < nx) (hny : 0 < ny) (hex : 2 ∣ nx) (hey : 2 ∣ ny)
    (hdt : 0 < dt) (hre : 0 < reynolds) :
    (∀ y x, y < ny → x < nx →
      (pressureDenominator nx ny dt reynolds y x = 0 ↔
        ((y = 0 ∨ y = ny / 2) ∧ (x = 0 ∨ x = nx / 2)))) ∧
    pHat nx ny dt reynolds velXhat velYhat 0 0 = 0 ∧
    pHat nx ny dt reynolds velXhat velYhat 0 (nx / 2) = 0 ∧
    pHat nx ny dt reynolds velXhat velYhat (ny / 2) 0 = 0 ∧
    pHat nx ny dt reynolds velXhat velYhat (ny / 2) (nx / 2) = 0 := by
  constructor
  · intro y x hy hx
    have hgx : gridSpacing nx ≠ 0 := by
      unfold gridSpacing
      positivity
    have hgy : gridSpacing ny ≠ 0 := by
      unfold gridSpacing
      positivity
    have hsx : 0 ≤ sin2Tab nx x * sin2Tab nx x / (gridSpacing nx * gridSpacing nx) :=
      div_nonneg (mul_self_nonneg _) (mul_self_nonneg _)
    have hsy : 0 ≤ sin2Tab ny y * sin2Tab ny y / (gridSpacing ny * gridSpacing ny) :=
      div_nonneg (mul_self_nonneg _) (mul_self_nonneg _)
    have hdr : dt / reynolds ≠ 0 := by positivity
    unfold pressureDenominator
    rw [mul_eq_zero]
    constructor
    · rintro (hsum | hzero)
      swap
      · exact absurd hzero hdr
      have h1 : sin2Tab nx x * sin2Tab nx x / (gridSpacing nx * gridSpacing nx) = 0 := by
        linarith
      have h2 : sin2Tab ny y * sin2Tab ny y / (gridSpacing ny * gridSpacing ny) = 0 := by
        linarith
      have hx0 : sin2Tab nx x = 0 := by
        rcases div_eq_zero_iff.mp h1 with h | h
        · exact mul_self_eq_zero.mp h
        · exact absurd h (mul_ne_zero hgx hgx)
      have hy0 : sin2Tab ny y = 0 := by
        rcases div_eq_zero_iff.mp h2 with h | h
        · exact mul_self_eq_zero.mp h
        · exact absurd h (mul_ne_zero hgy hgy)
      have hxc := (sin2Tab_eq_zero_iff nx x hnx hx).mp hx0
      have hyc := (sin2Tab_eq_zero_iff ny y hny hy).mp hy0
      obtain ⟨k, hk⟩ := hex
      obtain ⟨l, hl⟩ := hey
      exact ⟨by omega, by omega⟩
    · rintro ⟨hyc, hxc⟩
      left
      obtain ⟨k, hk⟩ := hex
      obtain ⟨l, hl⟩ := hey
      have hx0 : sin2Tab nx x = 0 :=
        (sin2Tab_eq_zero_iff nx x hnx hx).mpr (by omega)
      have hy0 : sin2Tab ny y = 0 :=
        (sin2Tab_eq_zero_iff ny y hny hy).mpr (by omega)
      rw [hx0, hy0]
      simp
  · refine ⟨?_, ?_, ?_, ?_⟩ <;>
      (unfold pHat; split_ifs <;> simp_all)

/-- Witness for C6 on a 4x4 grid with `dt = Re = 1`. -/

theorem c6_witness :
    ((0 < 4) ∧ (2 ∣ 4) ∧ (0:ℝ) < 1) ∧
    (pressureDenominator 4 4 1 1 1 1 = 0 ↔
      ((1 = 0 ∨ 1 = 4 / 2) ∧ (1 = 0 ∨ 1 = 4 / 2))) ∧
    pHat 4 4 1 1 (fun _ _ => 0) (fun _ _ => 0) 0 0 = 0 :=
  ⟨⟨by norm_num, by norm_num, by norm_num⟩,
   (c6_pressure_gauge_modes 4 4 1 1 (fun _ _ => 0) (fun _ _ => 0) (by norm_num)
     (by norm_num) (by norm_num) (by norm_num) (by norm_num) (by norm_num)).1
     1 1 (by norm_num) (by norm_num),
   (c6_pressure_gauge_modes 4 4 1 1 (fun _ _ => 0) (fun _ _ => 0) (by norm_num)
     (by norm_num) (by norm_num) (by norm_num) (by norm_num) (by norm_num)).2.1⟩

lemma upwindRowAux_state (N : ℕ) (inx iny : ℕ → ℕ → ℝ) (dx dy : ℝ)
    (y py nyi : ℕ) :
    ∀ (r px nxi x : ℕ), px < N → nxi < N →
      (upwindRowAux N inx iny dx dy y py nyi px nxi x r).2 =
        ((px + r) % N, (nxi + r) % N) := by
  intro r
  induction r with
  | zero =>
    intro px nxi x hpx hnx
    simp [upwindRowAux, Nat.mod_eq_of_lt hpx, Nat.mod_eq_of_lt hnx]
  | succ r ih =>
    intro px nxi x hpx hnx
    have hN : 0 < N := by omega
    unfold upwindRowAux
    rw [ih ((px + 1) % N) ((nxi + 1) % N) (x + 1) (Nat.mod_lt _ (by omega))
      (Nat.mod_lt _ (by omega))]
    rw [Nat.mod_add_mod, Nat.mod_add_mod, Prod.mk.injEq]
    constructor <;> (congr 1; omega)

lemma upwindRowAux_get (N : ℕ) (inx iny : ℕ → ℕ → ℝ) (dx dy : ℝ)
    (y py nyi : ℕ) :
    ∀ (r px nxi x j : ℕ), j < r → px < N → nxi < N →
      (upwindRowAux N inx iny dx dy y py nyi px nxi x r).1.getD j (0, 0) =
        (upwindCellX inx iny dx dy y (x + j) ((px + j) % N) ((nxi + j) % N) py nyi,
         upwindCellY inx iny dx dy y (x + j) ((px + j) % N) ((nxi + j) % N) py nyi) := by
  intro r
  induction r with
  | zero => intro px nxi x j hj; omega
  | succ r ih =>
    intro px nxi x j hj hpx hnx
    unfold upwindRowAux
    cases j with
    | zero =>
      simp [Nat.mod_eq_of_lt hpx, Nat.mod_eq_of_lt hnx]
    | succ j =>
      have hN : 0 < N := by omega
      have hrec := ih ((px + 1) % N) ((nxi + 1) % N) (x + 1) j (by omega)
        (Nat.mod_lt _ hN) (Nat.mod_lt _ hN)
      simp only [List.getD_cons_succ]
      rw [hrec, Nat.mod_add_mod, Nat.mod_add_mod]
      have e1 : x + 1 + j = x + (j + 1) := by omega
      have e2 : px + 1 + j = px + (j + 1) := by omega
      have e3 : nxi + 1 + j = nxi + (j + 1) := by omega
      rw [e1, e2, e3]

lemma upwindRowsAux_get (N M : ℕ) (inx iny : ℕ → ℕ → ℝ) (dx dy : ℝ)
    (hN : 2 ≤ N) :
    ∀ (r py nyi y i : ℕ), i < r → py < M → nyi < M →
      (upwindRowsAux N M inx iny dx dy (N - 1) 1 py nyi y r).getD i [] =
        (upwindRowAux N inx iny dx dy (y + i) ((py + i) % M) ((nyi + i) % M)
          (N - 1) 1 0 N).1 := by
  intro r
  induction r with
  | zero => intro py nyi y i hi; omega
  | succ r ih =>
    intro py nyi y i hi hpy hny
    unfold upwindRowsAux
    have hstate : (upwindRowAux N inx iny dx dy y py nyi (N - 1) 1 0 N).2 =
        ((N - 1 + N) % N, (1 + N) % N) :=
      upwindRowAux_state N inx iny dx dy y py nyi N (N - 1) 1 0 (by omega) (by omega)
    have hpx' : (N - 1 + N) % N = N - 1 := by
      rw [Nat.add_mod_right, Nat.mod_eq_of_lt (by omega)]
    have hnx' : (1 + N) % N = 1 := by
      rw [Nat.add_mod_right, Nat.mod_eq_of_lt (by omega)]
    cases i with
    | zero =>
      simp [Nat.mod_eq_of_lt hpy, Nat.mod_eq_of_lt hny]
    | succ i =>
      have hM : 0 < M := by omega
      simp only [List.getD_cons_succ]
      rw [hstate, hpx', hnx']
      rw [ih ((py + 1) % M) ((nyi + 1) % M) (y + 1) i (by omega)
        (Nat.mod_lt _ hM) (Nat.mod_lt _ hM)]
      rw [Nat.mod_add_mod, Nat.mod_add_mod]
      have e1 : y + 1 + i = y + (i + 1) := by omega
      have e2 : py + 1 + i = py + (i + 1) := by omega
      have e3 : nyi + 1 + i = nyi + (i + 1) := by omega
      rw [e1, e2, e3]

/-- C7: the loop-carried neighbour indices of `UpwindScheme` satisfy the
invariant that at cell `(y,x)` they equal `(x-1+N) % N`, `(x+1) % N`,
`(y-1+M) % M`, `(y+1) % M`, so the computed advection term at every cell
equals the first-order upwind formula with inline periodic neighbour indices,
both for the x- and the y-velocity output grids. -/

theorem c7_upwind_correct (N M : ℕ) (inx iny : ℕ → ℕ → ℝ) (dx dy : ℝ)
    (hN : 2 ≤ N) (hM : 2 ≤ M) (y x : ℕ) (hy : y < M) (hx : x < N) :
    ((upwindScheme N M inx iny dx dy).getD y []).getD x (0, 0) =
      (upwindSpecX N M inx iny dx dy y x, upwindSpecY N M inx iny dx dy y x) := by
  unfold upwindScheme
  rw [upwindRowsAux_get N M inx iny dx dy hN M (M - 1) 1 0 y hy (by omega) (by omega)]
  rw [upwindRowAux_get N inx iny dx dy (0 + y) ((M - 1 + y) % M) ((1 + y) % M)
    N (N - 1) 1 0 x hx (by omega) (by omega)]
  have ex : 0 + x = x := by omega
  have epx : N - 1 + x = x + N - 1 := by omega
  have enx : 1 + x = x + 1 := by omega
  have ey : 0 + y = y := by omega
  have epy : M - 1 + y = y + M - 1 := by omega
  have eny : 1 + y = y + 1 := by omega
  rw [ex, epx, enx, ey, epy, eny]
  rfl

/-- Witness for C7 on a concrete 2x2 grid at cell (1,1). -/

theorem c7_witness :
    (2 ≤ 2) ∧
    ((upwindScheme 2 2 (fun _ _ => 1) (fun _ _ => (2:ℝ)) 1 1).getD 1 []).getD 1 (0, 0) =
      (upwindSpecX 2 2 (fun _ _ => 1) (fun _ _ => (2:ℝ)) 1 1 1 1,
       upwindSpecY 2 2 (fun _ _ => 1) (fun _ _ => (2:ℝ)) 1 1 1 1) :=
  ⟨le_refl 2, c7_upwind_correct 2 2 (fun _ _ => 1) (fun _ _ => (2:ℝ)) 1 1
    (by norm_num) (by norm_num) 1 1 (by norm_num) (by norm_num)⟩

lemma divisionWalk_length (centroid unitPerp : ℝ × ℝ) (half : ℝ)
    (elemNodes : List ℕ) (stepFn : ℕ → ℕ) (e : ℕ) :
    ∀ (fuel i : ℕ) (nodes : List (ℝ × ℝ)),
      (divisionWalk centroid unitPerp half elemNodes stepFn e fuel i nodes).2.length =
        nodes.length := by
  intro fuel
  induction fuel with
  | zero => intro i nodes; rfl
  | succ fuel ih =>
    intro i nodes
    unfold divisionWalk
    split_ifs
    · rfl
    · exact List.length_set ..
    · exact ih (stepFn i) nodes

lemma moveNodesToDaughterA_length (elemNodes : List ℕ) (stencil : List (ℝ × ℝ))
    (cum : List ℝ) (target : ℝ) (numNodes : ℕ) (nodes : List (ℝ × ℝ)) :
    (moveNodesToDaughterA elemNodes stencil cum target numNodes nodes).2.length =
      nodes.length := by
  unfold moveNodesToDaughterA
  have key : ∀ (l : List ℕ) (st : ℕ × List (ℝ × ℝ)),
      ((l.foldl (fun st (nodeIdx : ℕ) =>
        let last := advanceIdx cum ((nodeIdx : ℝ) * target) cum.length st.1
        (last, st.2.set (elemNodes.getD nodeIdx 0)
          (sampleLocation stencil cum last ((nodeIdx : ℝ) * target)))) st).2).length =
        st.2.length := by
    intro l
    induction l with
    | nil => intro st; rfl
    | cons a l ih =>
      intro st
      rw [List.foldl_cons, ih]
      exact List.length_set ..
  exact key (List.range numNodes) (0, nodes)

lemma createDaughterBNodes_length (stencil : List (ℝ × ℝ)) (cum : List ℝ)
    (target : ℝ) (numNodes : ℕ) (nodes : List (ℝ × ℝ)) :
    (createDaughterBNodes stencil cum target numNodes nodes).2.length =
      nodes.length + numNodes := by
  unfold createDaughterBNodes
  have key : ∀ (l : List ℕ) (st : ℕ × List (ℝ × ℝ)),
      ((l.foldl (fun st (nodeIdx : ℕ) =>
        let last := advanceIdx cum ((nodeIdx : ℝ) * target) cum.length st.1
        (last, st.2 ++ [sampleLocation stencil cum last ((nodeIdx : ℝ) * target)])) st).2).length =
        st.2.length + l.length := by
    intro l
    induction l with
    | nil => intro st; simp
    | cons a l ih =>
      intro st
      rw [List.foldl_cons, ih]
      simp
      omega
  rw [key (List.range numNodes) (0, nodes)]
  simp

lemma divisionWalksPhase_length (centroid unitPerp : ℝ × ℝ) (half : ℝ)
    (elemNodes : List ℕ) (nodeAIndex nodeBIndex : ℕ) (nodes : List (ℝ × ℝ)) :
    (divisionWalksPhase centroid unitPerp half elemNodes nodeAIndex nodeBIndex
      nodes).2.length = nodes.length := by
  unfold divisionWalksPhase
  dsimp only
  rw [divisionWalk_length, divisionWalk_length, divisionWalk_length,
    divisionWalk_length]

/-- C3 (amended): if `DivideElement` fails with the division-spacing error,
no new nodes or elements have been added - the element list is unchanged and
the node count is unchanged - but node locations may already have been
modified: every walk that succeeded before the failure has snapped its
frontier node onto the half-spacing offset plane. -/
theorem c3_divideElement_error_noAllocation (state : MeshState)
    (elemIdx nodeAIndex nodeBIndex : ℕ) (centroid axisOfDivision : ℝ × ℝ)
    (spacing : ℝ)
    (herr : (divideElement state elemIdx nodeAIndex nodeBIndex centroid
        axisOfDivision spacing).2 = Except.error ()) :
    (divideElement state elemIdx nodeAIndex nodeBIndex centroid
        axisOfDivision spacing).1.elements = state.elements ∧
    (divideElement state elemIdx nodeAIndex nodeBIndex centroid
        axisOfDivision spacing).1.nodes.length = state.nodes.length := by
  unfold divideElement at herr ⊢
  dsimp only at herr ⊢
  split_ifs at herr ⊢ with hcond
  exact ⟨rfl, divisionWalksPhase_length ..⟩

/-- C9: when `DivideElement` succeeds on an element with `N` nodes, the node
count grows by exactly `N` and the element count by exactly 1; the returned
index is the element count before the call; the new element consists of the
`N` freshly appended node indices; and the original element (at its old
index) keeps its node-index list, so all previously issued node and element
indices remain valid. -/

theorem c9_divideElement_success (state : MeshState)
    (elemIdx nodeAIndex nodeBIndex : ℕ) (centroid axisOfDivision : ℝ × ℝ)
    (spacing : ℝ) (r : ℕ)
    (hres : (divideElement state elemIdx nodeAIndex nodeBIndex centroid
        axisOfDivision spacing).2 = Except.ok r) :
    (divideElement state elemIdx nodeAIndex nodeBIndex centroid
        axisOfDivision spacing).1.nodes.length =
      state.nodes.length + (state.elements.getD elemIdx []).length ∧
    (divideElement state elemIdx nodeAIndex nodeBIndex centroid
        axisOfDivision spacing).1.elements = state.elements ++
      [List.range' state.nodes.length (state.elements.getD elemIdx []).length] ∧
    r = state.elements.length ∧
    (elemIdx < state.elements.length →
      (divideElement state elemIdx nodeAIndex nodeBIndex centroid
        axisOfDivision spacing).1.elements.getD elemIdx [] =
        state.elements.getD elemIdx []) := by
  unfold divideElement at hres ⊢
  dsimp only at hres ⊢
  split_ifs at hres ⊢ with hcond
  refine ⟨?_, ?_, (Except.ok.inj hres).symm, ?_⟩
  · dsimp only
    rw [createDaughterBNodes_length, moveNodesToDaughterA_length,
      divisionWalksPhase_length]
  · dsimp only
    rw [moveNodesToDaughterA_length, divisionWalksPhase_length]
  · intro hlt
    dsimp only
    rw [List.getD_eq_getElem?_getD, List.getElem?_append_left hlt,
      ← List.getD_eq_getElem?_getD]

set_option maxHeartbeats 2000000 in
/-- Counterexample to C3 as stated: on the concrete hexagon, the call fails
with the division-spacing error (walk 2 finds no node at perpendicular
distance at least 0.1), yet the mesh is not unchanged - walk 1 already
snapped node 0 from (0.1, 0.35) to (0.1, 0.3). -/
theorem c3_counterexample :
    (divideElement ⟨c3Nodes, [[0, 1, 2, 3, 4, 5]]⟩ 0 5 2 (0.2, 0.2) (1, 0) 0.2).2 =
      Except.error () ∧
    (divideElement ⟨c3Nodes, [[0, 1, 2, 3, 4, 5]]⟩ 0 5 2 (0.2, 0.2) (1, 0)
      0.2).1.nodes ≠ c3Nodes := by
  constructor
  · norm_num [divideElement, divisionWalksPhase, divisionWalk, perpendicularDist,
      snapNode, getVectorFromAtoB, vectorFromAtoBComp, copysign, c3Nodes, abs,
      Real.sqrt_one]
  · intro h
    have h0 := congrArg (fun l => (l.getD 0 (0, 0)).2) h
    norm_num [divideElement, divisionWalksPhase, divisionWalk, perpendicularDist,
      snapNode, getVectorFromAtoB, vectorFromAtoBComp, copysign, c3Nodes, abs,
      Real.sqrt_one] at h0

/-- Witness for C3 (amended) at the concrete failing hexagon. -/

theorem c3_witness :
    (divideElement ⟨c3Nodes, [[0, 1, 2, 3, 4, 5]]⟩ 0 5 2 (0.2, 0.2) (1, 0) 0.2).2 =
      Except.error () ∧
    ((divideElement ⟨c3Nodes, [[0, 1, 2, 3, 4, 5]]⟩ 0 5 2 (0.2, 0.2) (1, 0)
        0.2).1.elements = [[0, 1, 2, 3, 4, 5]] ∧
      (divideElement ⟨c3Nodes, [[0, 1, 2, 3, 4, 5]]⟩ 0 5 2 (0.2, 0.2) (1, 0)
        0.2).1.nodes.length = c3Nodes.length) := by
  have herr : (divideElement ⟨c3Nodes, [[0, 1, 2, 3, 4, 5]]⟩ 0 5 2 (0.2, 0.2)
      (1, 0) 0.2).2 = Except.error () := by
    norm_num [divideElement, divisionWalksPhase, divisionWalk, perpendicularDist,
      snapNode, getVectorFromAtoB, vectorFromAtoBComp, copysign, c3Nodes, abs,
      Real.sqrt_one]
  exact ⟨herr,
    c3_divideElement_error_noAllocation ⟨c3Nodes, [[0, 1, 2, 3, 4, 5]]⟩ 0 5 2
      (0.2, 0.2) (1, 0) 0.2 herr⟩

/-- Witness for C9 at a concrete successful division of a hexagon. -/
theorem c9_witness :
    (divideElement ⟨c9Nodes, [[0, 1, 2, 3, 4, 5]]⟩ 0 5 2 (0.2, 0.2) (1, 0) 0.2).2 =
      Except.ok 1 ∧
    ((divideElement ⟨c9Nodes, [[0, 1, 2, 3, 4, 5]]⟩ 0 5 2 (0.2, 0.2) (1, 0)
        0.2).1.nodes.length =
      c9Nodes.length + (([[0, 1, 2, 3, 4, 5]] : List (List ℕ)).getD 0 []).length ∧
     (divideElement ⟨c9Nodes, [[0, 1, 2, 3, 4, 5]]⟩ 0 5 2 (0.2, 0.2) (1, 0)
        0.2).1.elements = [[0, 1, 2, 3, 4, 5]] ++
      [List.range' c9Nodes.length
        (([[0, 1, 2, 3, 4, 5]] : List (List ℕ)).getD 0 []).length]) := by
  have hok : (divideElement ⟨c9Nodes, [[0, 1, 2, 3, 4, 5]]⟩ 0 5 2 (0.2, 0.2)
      (1, 0) 0.2).2 = Except.ok 1 := by
    norm_num [divideElement, divisionWalksPhase, divisionWalk, perpendicularDist,
      snapNode, getVectorFromAtoB, vectorFromAtoBComp, copysign, c9Nodes, abs,
      Real.sqrt_one]
  have hmain := c9_divideElement_success ⟨c9Nodes, [[0, 1, 2, 3, 4, 5]]⟩ 0 5 2
    (0.2, 0.2) (1, 0) 0.2 1 hok
  exact ⟨hok, hmain.1, hmain.2.1⟩

open Real

lemma cos_stencil_sum (v : ℝ) :
    Real.cos (Real.pi * (0 - v) / 2) + Real.cos (Real.pi * (1 - v) / 2) +
      Real.cos (Real.pi * (2 - v) / 2) + Real.cos (Real.pi * (3 - v) / 2) = 0 := by
  have e0 : Real.pi * (0 - v) / 2 = -(Real.pi * v / 2) := by ring
  have e1 : Real.pi * (1 - v) / 2 = Real.pi / 2 - Real.pi * v / 2 := by ring
  have e2 : Real.pi * (2 - v) / 2 = Real.pi - Real.pi * v / 2 := by ring
  have e3 : Real.pi * (3 - v) / 2 = Real.pi + (Real.pi / 2 - Real.pi * v / 2) := by
    ring
  rw [e0, e1, e2, e3, Real.cos_neg, Real.cos_pi_div_two_sub, Real.cos_pi_sub,
    Real.cos_add, Real.cos_pi, Real.sin_pi, Real.cos_pi_div_two_sub]
  ring

/-- Conversion of one stencil weight to cosine form: for a grid of `M` cells
of spacing `1/M`, the kernel at distance `|c/M - u|` equals
`M*(1 + cos(pi*(c - u*M)/2))/4`. -/

lemma Delta1D_to_cos (M : ℕ) (hM : 0 < M) (c u : ℝ) :
    Delta1D |c * (1 / M) - u| (1 / M) =
      (M : ℝ) * (1 + Real.cos (Real.pi * (c - u * M) / 2)) / 4 := by
  have hMne : (M : ℝ) ≠ 0 := Nat.cast_ne_zero.mpr hM.ne'
  have hMpos : (0 : ℝ) < M := by positivity
  unfold Delta1D
  have habs : c * (1 / M) - u = (c - u * M) / M := by
    field_simp
    ring
  have hrhs : |Real.pi * (c - u * M) / 2| = Real.pi * |c - u * M| / 2 := by
    rw [abs_div, abs_mul, abs_of_pos Real.pi_pos,
      abs_of_pos (by norm_num : (0:ℝ) < 2)]
  have harg : Real.pi * |(c - u * M) / M| / (2 * (1 / M)) =
      |Real.pi * (c - u * M) / 2| := by
    rw [hrhs, abs_div, abs_of_pos hMpos]
    field_simp
  rw [habs, harg, Real.cos_abs]
  field_simp
  ring

/-- Partition of unity over any four consecutive grid points: the kernel
weights at distances `|(a+k)/M - u|`, `k = 0..3`, sum to `M`. -/

lemma Delta1D_row_sum (M : ℕ) (hM : 0 < M) (a u : ℝ) :
    Delta1D |a * (1 / M) - u| (1 / M) + Delta1D |(a + 1) * (1 / M) - u| (1 / M) +
      Delta1D |(a + 2) * (1 / M) - u| (1 / M) +
      Delta1D |(a + 3) * (1 / M) - u| (1 / M) = M := by
  rw [Delta1D_to_cos M hM a u, Delta1D_to_cos M hM (a + 1) u,
    Delta1D_to_cos M hM (a + 2) u, Delta1D_to_cos M hM (a + 3) u]
  have := cos_stencil_sum (u * M - a)
  have e0 : Real.pi * (0 - (u * M - a)) / 2 = Real.pi * (a - u * M) / 2 := by ring
  have e1 : Real.pi * (1 - (u * M - a)) / 2 = Real.pi * (a + 1 - u * M) / 2 := by ring
  have e2 : Real.pi * (2 - (u * M - a)) / 2 = Real.pi * (a + 2 - u * M) / 2 := by ring
  have e3 : Real.pi * (3 - (u * M - a)) / 2 = Real.pi * (a + 3 - u * M) / 2 := by ring
  rw [e0, e1, e2, e3] at this
  linear_combination ((M : ℝ) / 4) * this

/-- With `M` a multiple of 4 the kernel weight at the aliased point `-1/M`
(reached by the wrap `first_idx += M` logic) equals the weight at
`(M-1)/M`. -/

lemma Delta1D_wrap_eq (M : ℕ) (hM : 0 < M) (h4 : 4 ∣ M) (u : ℝ) :
    Delta1D |(-1 : ℝ) * (1 / M) - u| (1 / M) =
      Delta1D |((M : ℝ) - 1) * (1 / M) - u| (1 / M) := by
  obtain ⟨m, hm⟩ := h4
  rw [Delta1D_to_cos M hM (-1) u, Delta1D_to_cos M hM ((M : ℝ) - 1) u]
  have hMr : (M : ℝ) = 4 * m := by exact_mod_cast hm
  have e : Real.pi * ((M : ℝ) - 1 - u * M) / 2 =
      Real.pi * (-1 - u * M) / 2 + (m : ℤ) * (2 * Real.pi) := by
    push_cast
    rw [hMr]
    ring
  rw [e, Real.cos_add_int_mul_two_pi]

/-- The wrapped stencil row: weight at the aliased `-1/M` point plus the
weights at `(M-1+k)/M`, `k = 1..3`, still sum to `M` when `4` divides `M`. -/

lemma Delta1D_row_sum_wrap (M : ℕ) (hM : 0 < M) (h4 : 4 ∣ M) (u : ℝ) :
    Delta1D |(-1 : ℝ) * (1 / M) - u| (1 / M) +
      Delta1D |((M : ℝ) - 1 + 1) * (1 / M) - u| (1 / M) +
      Delta1D |((M : ℝ) - 1 + 2) * (1 / M) - u| (1 / M) +
      Delta1D |((M : ℝ) - 1 + 3) * (1 / M) - u| (1 / M) = M := by
  rw [Delta1D_wrap_eq M hM h4 u]
  exact Delta1D_row_sum M hM ((M : ℝ) - 1) u

lemma gridSum_deposit (M N : ℕ) (g : ℤ × ℤ → ℝ) (p : ℤ × ℤ) (w : ℝ)
    (hp : p ∈ Finset.Ico (0 : ℤ) (M : ℤ) ×ˢ Finset.Ico (0 : ℤ) (N : ℤ)) :
    gridSum M N (depositForce g p w) = gridSum M N g + w := by
  unfold gridSum depositForce
  rw [Finset.sum_update_of_mem hp, Finset.sdiff_singleton_eq_erase,
    ← Finset.add_sum_erase _ g hp]
  ring

lemma mem_gridBox (M N : ℕ) (hM : 0 < M) (hN : 0 < N) (a b : ℤ) :
    ((a % (M : ℤ), b % (N : ℤ)) : ℤ × ℤ) ∈
      Finset.Ico (0 : ℤ) (M : ℤ) ×ˢ Finset.Ico (0 : ℤ) (N : ℤ) := by
  rw [Finset.mem_product, Finset.mem_Ico, Finset.mem_Ico]
  have hMz : (M : ℤ) ≠ 0 := by exact_mod_cast hM.ne'
  have hNz : (N : ℤ) ≠ 0 := by exact_mod_cast hN.ne'
  exact ⟨⟨Int.emod_nonneg a hMz, Int.emod_lt_of_pos a (by exact_mod_cast hM)⟩,
    ⟨Int.emod_nonneg b hNz, Int.emod_lt_of_pos b (by exact_mod_cast hN)⟩⟩

lemma spreadInner_eval_bump (N M : ℕ) (dx dy nx ny fx fy dl distX : ℝ)
    (fix : ℤ) (xIdx : ℕ) (f : ℤ) (gx gy : ℤ × ℤ → ℝ) (yIdx : ℕ)
    (h : f = -1) :
    spreadInner N M dx dy nx ny fx fy dl distX fix xIdx (f, gx, gy) yIdx =
      (f + M,
       depositForce gx ((f + M + yIdx) % M, (fix + xIdx) % N)
         (fx * Delta1D distX dx * Delta1D |((f + (yIdx : ℤ) : ℤ) : ℝ) * dy - ny| dy * dl),
       depositForce gy ((f + M + yIdx) % M, (fix + xIdx) % N)
         (fy * Delta1D distX dx * Delta1D |((f + (yIdx : ℤ) : ℤ) : ℝ) * dy - ny| dy * dl)) := by
  simp only [spreadInner, h, if_pos]

lemma spreadInner_eval_nobump (N M : ℕ) (dx dy nx ny fx fy dl distX : ℝ)
    (fix : ℤ) (xIdx : ℕ) (f : ℤ) (gx gy : ℤ × ℤ → ℝ) (yIdx : ℕ)
    (h : ¬(f = -1)) :
    spreadInner N M dx dy nx ny fx fy dl distX fix xIdx (f, gx, gy) yIdx =
      (f,
       depositForce gx ((f + yIdx) % M, (fix + xIdx) % N)
         (fx * Delta1D distX dx * Delta1D |((f + (yIdx : ℤ) : ℤ) : ℝ) * dy - ny| dy * dl),
       depositForce gy ((f + yIdx) % M, (fix + xIdx) % N)
         (fy * Delta1D distX dx * Delta1D |((f + (yIdx : ℤ) : ℤ) : ℝ) * dy - ny| dy * dl)) := by
  simp only [spreadInner, h, if_neg, if_false]

lemma spreadInnerFold_eval (N M : ℕ) (hM : 0 < M) (hN : 0 < N)
    (dx dy nx ny fx fy dl distX : ℝ) (fix : ℤ) (xIdx : ℕ) (fiy : ℤ)
    (gX gY : ℤ × ℤ → ℝ) :
    ((List.range 4).foldl (spreadInner N M dx dy nx ny fx fy dl distX fix xIdx)
        (fiy, gX, gY)).1 = (if fiy = -1 then fiy + M else fiy) ∧
    gridSum M N ((List.range 4).foldl
        (spreadInner N M dx dy nx ny fx fy dl distX fix xIdx) (fiy, gX, gY)).2.1 =
      gridSum M N gX + fx * Delta1D distX dx * dl * yWeightSum M dy ny fiy ∧
    gridSum M N ((List.range 4).foldl
        (spreadInner N M dx dy nx ny fx fy dl distX fix xIdx) (fiy, gX, gY)).2.2 =
      gridSum M N gY + fy * Delta1D distX dx * dl * yWeightSum M dy ny fiy := by
  have hr4 : List.range 4 = [0, 1, 2, 3] := rfl
  rw [hr4]
  simp only [List.foldl_cons, List.foldl_nil]
  by_cases hfiy : fiy = -1
  · have hb : ¬(fiy + (M : ℤ) = -1) := by omega
    rw [spreadInner_eval_bump N M dx dy nx ny fx fy dl distX fix xIdx fiy gX gY 0 hfiy,
      spreadInner_eval_nobump N M dx dy nx ny fx fy dl distX fix xIdx _ _ _ 1 hb,
      spreadInner_eval_nobump N M dx dy nx ny fx fy dl distX fix xIdx _ _ _ 2 hb,
      spreadInner_eval_nobump N M dx dy nx ny fx fy dl distX fix xIdx _ _ _ 3 hb,
      if_pos hfiy]
    refine ⟨rfl, ?_, ?_⟩ <;>
      (rw [gridSum_deposit _ _ _ _ _ (mem_gridBox M N hM hN _ _),
          gridSum_deposit _ _ _ _ _ (mem_gridBox M N hM hN _ _),
          gridSum_deposit _ _ _ _ _ (mem_gridBox M N hM hN _ _),
          gridSum_deposit _ _ _ _ _ (mem_gridBox M N hM hN _ _)]
       unfold yWeightSum
       rw [if_pos hfiy]
       push_cast
       try ring_nf)
  · rw [spreadInner_eval_nobump N M dx dy nx ny fx fy dl distX fix xIdx fiy gX gY 0 hfiy,
      spreadInner_eval_nobump N M dx dy nx ny fx fy dl distX fix xIdx _ _ _ 1 hfiy,
      spreadInner_eval_nobump N M dx dy nx ny fx fy dl distX fix xIdx _ _ _ 2 hfiy,
      spreadInner_eval_nobump N M dx dy nx ny fx fy dl distX fix xIdx _ _ _ 3 hfiy,
      if_neg hfiy]
    refine ⟨rfl, ?_, ?_⟩ <;>
      (rw [gridSum_deposit _ _ _ _ _ (mem_gridBox M N hM hN _ _),
          gridSum_deposit _ _ _ _ _ (mem_gridBox M N hM hN _ _),
          gridSum_deposit _ _ _ _ _ (mem_gridBox M N hM hN _ _),
          gridSum_deposit _ _ _ _ _ (mem_gridBox M N hM hN _ _)]
       unfold yWeightSum
       rw [if_neg hfiy]
       push_cast
       try ring_nf)

lemma spreadInnerFold_eval2 (N M : ℕ) (hM : 0 < M) (hN : 0 < N)
    (dx dy nx ny fx fy dl distX : ℝ) (fix : ℤ) (xIdx : ℕ)
    (st : ℤ × (ℤ × ℤ → ℝ) × (ℤ × ℤ → ℝ)) :
    ((List.range 4).foldl (spreadInner N M dx dy nx ny fx fy dl distX fix xIdx)
        st).1 = (if st.1 = -1 then st.1 + M else st.1) ∧
    gridSum M N ((List.range 4).foldl
        (spreadInner N M dx dy nx ny fx fy dl distX fix xIdx) st).2.1 =
      gridSum M N st.2.1 + fx * Delta1D distX dx * dl * yWeightSum M dy ny st.1 ∧
    gridSum M N ((List.range 4).foldl
        (spreadInner N M dx dy nx ny fx fy dl distX fix xIdx) st).2.2 =
      gridSum M N st.2.2 + fy * Delta1D distX dx * dl * yWeightSum M dy ny st.1 := by
  obtain ⟨f, gx, gy⟩ := st
  exact spreadInnerFold_eval N M hM hN dx dy nx ny fx fy dl distX fix xIdx f gx gy

lemma spreadOuter_eval_bump (N M : ℕ) (dx dy nx ny fx fy dl : ℝ) (f : ℤ)
    (rest : ℤ × (ℤ × ℤ → ℝ) × (ℤ × ℤ → ℝ)) (xIdx : ℕ) (h : f = -1) :
    spreadOuter N M dx dy nx ny fx fy dl (f, rest) xIdx =
      (f + N, (List.range 4).foldl
        (spreadInner N M dx dy nx ny fx fy dl
          |((f + (xIdx : ℤ) : ℤ) : ℝ) * dx - nx| (f + N) xIdx) rest) := by
  simp only [spreadOuter, h, if_pos]

lemma spreadOuter_eval_nobump (N M : ℕ) (dx dy nx ny fx fy dl : ℝ) (f : ℤ)
    (rest : ℤ × (ℤ × ℤ → ℝ) × (ℤ × ℤ → ℝ)) (xIdx : ℕ) (h : ¬(f = -1)) :
    spreadOuter N M dx dy nx ny fx fy dl (f, rest) xIdx =
      (f, (List.range 4).foldl
        (spreadInner N M dx dy nx ny fx fy dl
          |((f + (xIdx : ℤ) : ℤ) : ℝ) * dx - nx| f xIdx) rest) := by
  simp only [spreadOuter, h, if_neg, if_false]

/-- Evaluation of `yWeightSum` on a grid of spacing `1/M`: whenever the entry
index is at least `-1` (as `first_idx_y = floor(ny*M) - 1` always is for
`ny ≥ 0`) and `4` divides `M`, the four `dist_y` weights sum to `M`. -/

lemma yWeightSum_eval (M : ℕ) (hM : 0 < M) (h4 : 4 ∣ M) (ny : ℝ) (fiy : ℤ) :
    yWeightSum M (1 / M) ny fiy = M := by
  unfold yWeightSum
  by_cases h : fiy = -1
  · rw [if_pos h, h]
    have a0 : ((-1 : ℤ) : ℝ) * (1 / M) - ny = (-1 : ℝ) * (1 / M) - ny := by
      push_cast; ring
    have a1 : (((-1 : ℤ) + (M : ℤ) : ℤ) : ℝ) * (1 / M) + 1 * (1 / M) - ny =
        ((M : ℝ) - 1 + 1) * (1 / M) - ny := by push_cast; ring
    have a2 : (((-1 : ℤ) + (M : ℤ) : ℤ) : ℝ) * (1 / M) + 2 * (1 / M) - ny =
        ((M : ℝ) - 1 + 2) * (1 / M) - ny := by push_cast; ring
    have a3 : (((-1 : ℤ) + (M : ℤ) : ℤ) : ℝ) * (1 / M) + 3 * (1 / M) - ny =
        ((M : ℝ) - 1 + 3) * (1 / M) - ny := by push_cast; ring
    rw [a0, a1, a2, a3]
    exact Delta1D_row_sum_wrap M hM h4 ny
  · rw [if_neg h]
    have a1 : ((fiy : ℝ)) * (1 / M) + 1 * (1 / M) - ny =
        ((fiy : ℝ) + 1) * (1 / M) - ny := by ring
    have a2 : ((fiy : ℝ)) * (1 / M) + 2 * (1 / M) - ny =
        ((fiy : ℝ) + 2) * (1 / M) - ny := by ring
    have a3 : ((fiy : ℝ)) * (1 / M) + 3 * (1 / M) - ny =
        ((fiy : ℝ) + 3) * (1 / M) - ny := by ring
    rw [a1, a2, a3]
    exact Delta1D_row_sum M hM (fiy : ℝ) ny

/-- C1 (amended): in PropagateForcesToFluidGrid, the 4x4 cosine-kernel spread of a
node force is conservative provided the grid sizes are divisible by 4: the
area-weighted sum of the deposits added to the force grid equals the node force
times the node spacing, in each component. (The wrapped stencil `first_idx += N`
re-uses distances computed before the bump, which aliases the cosine weights
correctly only when 4 divides N; see the counterexample at N = 6.) -/

theorem c1_spread_totalForce (N M : ℕ) (nx ny fx fy dl : ℝ) (gX gY : ℤ × ℤ → ℝ)
    (hN4 : 4 ∣ N) (hM4 : 4 ∣ M) (hN : 0 < N) (hM : 0 < M)
    (hnx0 : 0 ≤ nx) (hnx1 : nx < 1) (hny0 : 0 ≤ ny) (hny1 : ny < 1) :
    (1 / (N : ℝ)) * (1 / (M : ℝ)) *
        (gridSum M N (propagateForceOfNode N M (1 / N) (1 / M) nx ny fx fy dl gX gY).1
          - gridSum M N gX) = fx * dl ∧
    (1 / (N : ℝ)) * (1 / (M : ℝ)) *
        (gridSum M N (propagateForceOfNode N M (1 / N) (1 / M) nx ny fx fy dl gX gY).2
          - gridSum M N gY) = fy * dl := by
  have hNne : (N : ℝ) ≠ 0 := Nat.cast_ne_zero.mpr hN.ne'
  have hMne : (M : ℝ) ≠ 0 := Nat.cast_ne_zero.mpr hM.ne'
  unfold propagateForceOfNode
  have hr4 : List.range 4 = [0, 1, 2, 3] := rfl
  rw [hr4]
  simp only [List.foldl_cons, List.foldl_nil]
  by_cases hwx : (⌊nx / (1 / (N : ℝ))⌋ - 1 : ℤ) = -1
  · have hb : ¬((⌊nx / (1 / (N : ℝ))⌋ - 1 : ℤ) + N = -1) := by omega
    rw [spreadOuter_eval_bump N M (1/N) (1/M) nx ny fx fy dl _ _ 0 hwx,
      spreadOuter_eval_nobump N M (1/N) (1/M) nx ny fx fy dl _ _ 1 hb,
      spreadOuter_eval_nobump N M (1/N) (1/M) nx ny fx fy dl _ _ 2 hb,
      spreadOuter_eval_nobump N M (1/N) (1/M) nx ny fx fy dl _ _ 3 hb]
    dsimp only
    constructor
    · rw [(spreadInnerFold_eval2 N M hM hN (1/N) (1/M) nx ny fx fy dl _ _ _ _).2.1,
        (spreadInnerFold_eval2 N M hM hN (1/N) (1/M) nx ny fx fy dl _ _ _ _).2.1,
        (spreadInnerFold_eval2 N M hM hN (1/N) (1/M) nx ny fx fy dl _ _ _ _).2.1,
        (spreadInnerFold_eval2 N M hM hN (1/N) (1/M) nx ny fx fy dl _ _ _ _).2.1]
      simp only [yWeightSum_eval M hM hM4 ny]
      rw [hwx]
      have c0 : (((-1 : ℤ) + ((0 : ℕ) : ℤ) : ℤ) : ℝ) * (1 / N) - nx =
          (-1 : ℝ) * (1 / N) - nx := by push_cast; ring
      have c1 : (((-1 : ℤ) + (N : ℤ) + ((1 : ℕ) : ℤ) : ℤ) : ℝ) * (1 / N) - nx =
          ((N : ℝ) - 1 + 1) * (1 / N) - nx := by push_cast; ring
      have c2 : (((-1 : ℤ) + (N : ℤ) + ((2 : ℕ) : ℤ) : ℤ) : ℝ) * (1 / N) - nx =
          ((N : ℝ) - 1 + 2) * (1 / N) - nx := by push_cast; ring
      have c3 : (((-1 : ℤ) + (N : ℤ) + ((3 : ℕ) : ℤ) : ℤ) : ℝ) * (1 / N) - nx =
          ((N : ℝ) - 1 + 3) * (1 / N) - nx := by push_cast; ring
      rw [c0, c1, c2, c3]
      have hx := Delta1D_row_sum_wrap N hN hN4 nx
      set a0 := Delta1D |(-1 : ℝ) * (1 / N) - nx| (1 / N) with ha0
      set a1 := Delta1D |((N : ℝ) - 1 + 1) * (1 / N) - nx| (1 / N) with ha1
      set a2 := Delta1D |((N : ℝ) - 1 + 2) * (1 / N) - nx| (1 / N) with ha2
      set a3 := Delta1D |((N : ℝ) - 1 + 3) * (1 / N) - nx| (1 / N) with ha3
      field_simp
      linear_combination (fx * dl * (M : ℝ)) * hx
    · rw [(spreadInnerFold_eval2 N M hM hN (1/N) (1/M) nx ny fx fy dl _ _ _ _).2.2,
        (spreadInnerFold_eval2 N M hM hN (1/N) (1/M) nx ny fx fy dl _ _ _ _).2.2,
        (spreadInnerFold_eval2 N M hM hN (1/N) (1/M) nx ny fx fy dl _ _ _ _).2.2,
        (spreadInnerFold_eval2 N M hM hN (1/N) (1/M) nx ny fx fy dl _ _ _ _).2.2]
      simp only [yWeightSum_eval M hM hM4 ny]
      rw [hwx]
      have c0 : (((-1 : ℤ) + ((0 : ℕ) : ℤ) : ℤ) : ℝ) * (1 / N) - nx =
          (-1 : ℝ) * (1 / N) - nx := by push_cast; ring
      have c1 : (((-1 : ℤ) + (N : ℤ) + ((1 : ℕ) : ℤ) : ℤ) : ℝ) * (1 / N) - nx =
          ((N : ℝ) - 1 + 1) * (1 / N) - nx := by push_cast; ring
      have c2 : (((-1 : ℤ) + (N : ℤ) + ((2 : ℕ) : ℤ) : ℤ) : ℝ) * (1 / N) - nx =
          ((N : ℝ) - 1 + 2) * (1 / N) - nx := by push_cast; ring
      have c3 : (((-1 : ℤ) + (N : ℤ) + ((3 : ℕ) : ℤ) : ℤ) : ℝ) * (1 / N) - nx =
          ((N : ℝ) - 1 + 3) * (1 / N) - nx := by push_cast; ring
      rw [c0, c1, c2, c3]
      have hx := Delta1D_row_sum_wrap N hN hN4 nx
      set a0 := Delta1D |(-1 : ℝ) * (1 / N) - nx| (1 / N) with ha0
      set a1 := Delta1D |((N : ℝ) - 1 + 1) * (1 / N) - nx| (1 / N) with ha1
      set a2 := Delta1D |((N : ℝ) - 1 + 2) * (1 / N) - nx| (1 / N) with ha2
      set a3 := Delta1D |((N : ℝ) - 1 + 3) * (1 / N) - nx| (1 / N) with ha3
      field_simp
      linear_combination (fy * dl * (M : ℝ)) * hx
  · rw [spreadOuter_eval_nobump N M (1/N) (1/M) nx ny fx fy dl _ _ 0 hwx,
      spreadOuter_eval_nobump N M (1/N) (1/M) nx ny fx fy dl _ _ 1 hwx,
      spreadOuter_eval_nobump N M (1/N) (1/M) nx ny fx fy dl _ _ 2 hwx,
      spreadOuter_eval_nobump N M (1/N) (1/M) nx ny fx fy dl _ _ 3 hwx]
    dsimp only
    constructor
    · rw [(spreadInnerFold_eval2 N M hM hN (1/N) (1/M) nx ny fx fy dl _ _ _ _).2.1,
        (spreadInnerFold_eval2 N M hM hN (1/N) (1/M) nx ny fx fy dl _ _ _ _).2.1,
        (spreadInnerFold_eval2 N M hM hN (1/N) (1/M) nx ny fx fy dl _ _ _ _).2.1,
        (spreadInnerFold_eval2 N M hM hN (1/N) (1/M) nx ny fx fy dl _ _ _ _).2.1]
      simp only [yWeightSum_eval M hM hM4 ny]
      have c0 : (((⌊nx / (1 / (N : ℝ))⌋ - 1 : ℤ) + ((0 : ℕ) : ℤ) : ℤ) : ℝ) * (1 / N) - nx =
          (((⌊nx / (1 / (N : ℝ))⌋ : ℤ) : ℝ) - 1) * (1 / N) - nx := by push_cast; ring
      have c1 : (((⌊nx / (1 / (N : ℝ))⌋ - 1 : ℤ) + ((1 : ℕ) : ℤ) : ℤ) : ℝ) * (1 / N) - nx =
          ((((⌊nx / (1 / (N : ℝ))⌋ : ℤ) : ℝ) - 1) + 1) * (1 / N) - nx := by push_cast; ring
      have c2 : (((⌊nx / (1 / (N : ℝ))⌋ - 1 : ℤ) + ((2 : ℕ) : ℤ) : ℤ) : ℝ) * (1 / N) - nx =
          ((((⌊nx / (1 / (N : ℝ))⌋ : ℤ) : ℝ) - 1) + 2) * (1 / N) - nx := by push_cast; ring
      have c3 : (((⌊nx / (1 / (N : ℝ))⌋ - 1 : ℤ) + ((3 : ℕ) : ℤ) : ℤ) : ℝ) * (1 / N) - nx =
          ((((⌊nx / (1 / (N : ℝ))⌋ : ℤ) : ℝ) - 1) + 3) * (1 / N) - nx := by push_cast; ring
      rw [c0, c1, c2, c3]
      have hx := Delta1D_row_sum N hN ((((⌊nx / (1 / (N : ℝ))⌋ : ℤ) : ℝ)) - 1) nx
      set a0 := Delta1D |(((⌊nx / (1 / (N : ℝ))⌋ : ℤ) : ℝ) - 1) * (1 / N) - nx| (1 / N) with ha0
      set a1 := Delta1D |((((⌊nx / (1 / (N : ℝ))⌋ : ℤ) : ℝ) - 1) + 1) * (1 / N) - nx| (1 / N) with ha1
      set a2 := Delta1D |((((⌊nx / (1 / (N : ℝ))⌋ : ℤ) : ℝ) - 1) + 2) * (1 / N) - nx| (1 / N) with ha2
      set a3 := Delta1D |((((⌊nx / (1 / (N : ℝ))⌋ : ℤ) : ℝ) - 1) + 3) * (1 / N) - nx| (1 / N) with ha3
      field_simp
      linear_combination (fx * dl * (M : ℝ)) * hx
    · rw [(spreadInnerFold_eval2 N M hM hN (1/N) (1/M) nx ny fx fy dl _ _ _ _).2.2,
        (spreadInnerFold_eval2 N M hM hN (1/N) (1/M) nx ny fx fy dl _ _ _ _).2.2,
        (spreadInnerFold_eval2 N M hM hN (1/N) (1/M) nx ny fx fy dl _ _ _ _).2.2,
        (spreadInnerFold_eval2 N M hM hN (1/N) (1/M) nx ny fx fy dl _ _ _ _).2.2]
      simp only [yWeightSum_eval M hM hM4 ny]
      have c0 : (((⌊nx / (1 / (N : ℝ))⌋ - 1 : ℤ) + ((0 : ℕ) : ℤ) : ℤ) : ℝ) * (1 / N) - nx =
          (((⌊nx / (1 / (N : ℝ))⌋ : ℤ) : ℝ) - 1) * (1 / N) - nx := by push_cast; ring
      have c1 : (((⌊nx / (1 / (N : ℝ))⌋ - 1 : ℤ) + ((1 : ℕ) : ℤ) : ℤ) : ℝ) * (1 / N) - nx =
          ((((⌊nx / (1 / (N : ℝ))⌋ : ℤ) : ℝ) - 1) + 1) * (1 / N) - nx := by push_cast; ring
      have c2 : (((⌊nx / (1 / (N : ℝ))⌋ - 1 : ℤ) + ((2 : ℕ) : ℤ) : ℤ) : ℝ) * (1 / N) - nx =
          ((((⌊nx / (1 / (N : ℝ))⌋ : ℤ) : ℝ) - 1) + 2) * (1 / N) - nx := by push_cast; ring
      have c3 : (((⌊nx / (1 / (N : ℝ))⌋ - 1 : ℤ) + ((3 : ℕ) : ℤ) : ℤ) : ℝ) * (1 / N) - nx =
          ((((⌊nx / (1 / (N : ℝ))⌋ : ℤ) : ℝ) - 1) + 3) * (1 / N) - nx := by push_cast; ring
      rw [c0, c1, c2, c3]
      have hx := Delta1D_row_sum N hN ((((⌊nx / (1 / (N : ℝ))⌋ : ℤ) : ℝ)) - 1) nx
      set a0 := Delta1D |(((⌊nx / (1 / (N : ℝ))⌋ : ℤ) : ℝ) - 1) * (1 / N) - nx| (1 / N) with ha0
      set a1 := Delta1D |((((⌊nx / (1 / (N : ℝ))⌋ : ℤ) : ℝ) - 1) + 1) * (1 / N) - nx| (1 / N) with ha1
      set a2 := Delta1D |((((⌊nx / (1 / (N : ℝ))⌋ : ℤ) : ℝ) - 1) + 2) * (1 / N) - nx| (1 / N) with ha2
      set a3 := Delta1D |((((⌊nx / (1 / (N : ℝ))⌋ : ℤ) : ℝ) - 1) + 3) * (1 / N) - nx| (1 / N) with ha3
      field_simp
      linear_combination (fy * dl * (M : ℝ)) * hx

lemma spreadInnerFold_state (N M : ℕ) (hM : 0 < M) (hN : 0 < N)
    (dx dy nx ny fx fy dl distX : ℝ) (fix : ℤ) (xIdx : ℕ)
    (st : ℤ × (ℤ × ℤ → ℝ) × (ℤ × ℤ → ℝ)) :
    ((List.range 4).foldl (spreadInner N M dx dy nx ny fx fy dl distX fix xIdx)
        st).1 = (if st.1 = -1 then st.1 + M else st.1) :=
  (spreadInnerFold_eval2 N M hM hN dx dy nx ny fx fy dl distX fix xIdx st).1

lemma yWeightSum_c1ce : yWeightSum 6 (1 / 6) (1 / 2) 2 = 6 := by
  unfold yWeightSum
  rw [if_neg (show ¬((2 : ℤ) = -1) by decide)]
  have d1 : |((2 : ℤ) : ℝ) * (1 / 6) - 1 / 2| = 1 / 6 := by
    rw [show ((2 : ℤ) : ℝ) * (1 / 6) - 1 / 2 = -(1 / 6) by push_cast; ring, abs_neg,
      abs_of_nonneg (by norm_num)]
  have d2 : |((2 : ℤ) : ℝ) * (1 / 6) + 1 * (1 / 6) - 1 / 2| = 0 := by
    rw [show ((2 : ℤ) : ℝ) * (1 / 6) + 1 * (1 / 6) - 1 / 2 = 0 by push_cast; ring]
    norm_num
  have d3 : |((2 : ℤ) : ℝ) * (1 / 6) + 2 * (1 / 6) - 1 / 2| = 1 / 6 := by
    rw [show ((2 : ℤ) : ℝ) * (1 / 6) + 2 * (1 / 6) - 1 / 2 = 1 / 6 by push_cast; ring,
      abs_of_nonneg (by norm_num)]
  have d4 : |((2 : ℤ) : ℝ) * (1 / 6) + 3 * (1 / 6) - 1 / 2| = 1 / 3 := by
    rw [show ((2 : ℤ) : ℝ) * (1 / 6) + 3 * (1 / 6) - 1 / 2 = 1 / 3 by push_cast; ring,
      abs_of_nonneg (by norm_num)]
  rw [d1, d2, d3, d4]
  unfold Delta1D
  rw [show Real.pi * (1 / 6) / (2 * (1 / 6 : ℝ)) = Real.pi / 2 by ring,
    show Real.pi * 0 / (2 * (1 / 6 : ℝ)) = 0 by ring,
    show Real.pi * (1 / 3) / (2 * (1 / 6 : ℝ)) = Real.pi by ring,
    Real.cos_pi_div_two, Real.cos_zero, Real.cos_pi]
  norm_num

lemma c1ce_a0 : Delta1D |(-1 : ℝ) * (1 / 6) - 1 / 18| (1 / 6) = 3 / 4 := by
  have hd : |(-1 : ℝ) * (1 / 6) - 1 / 18| = 2 / 9 := by
    rw [show (-1 : ℝ) * (1 / 6) - 1 / 18 = -(2 / 9) by ring, abs_neg,
      abs_of_nonneg (by norm_num)]
  rw [hd]
  unfold Delta1D
  rw [show Real.pi * (2 / 9) / (2 * (1 / 6 : ℝ)) = Real.pi - Real.pi / 3 by ring,
    Real.cos_pi_sub, Real.cos_pi_div_three]
  norm_num

lemma c1ce_a1 : Delta1D |((6 : ℝ) - 1 + 1) * (1 / 6) - 1 / 18| (1 / 6) =
    3 / 2 * (1 - Real.sqrt 3 / 2) := by
  have hd : |((6 : ℝ) - 1 + 1) * (1 / 6) - 1 / 18| = 17 / 18 := by
    rw [show ((6 : ℝ) - 1 + 1) * (1 / 6) - 1 / 18 = 17 / 18 by ring,
      abs_of_nonneg (by norm_num)]
  rw [hd]
  unfold Delta1D
  rw [show Real.pi * (17 / 18) / (2 * (1 / 6 : ℝ)) =
      (Real.pi - Real.pi / 6) + 2 * Real.pi by ring,
    Real.cos_add_two_pi, Real.cos_pi_sub, Real.cos_pi_div_six]
  ring

lemma c1ce_a2 : Delta1D |((6 : ℝ) - 1 + 2) * (1 / 6) - 1 / 18| (1 / 6) = 3 / 4 := by
  have hd : |((6 : ℝ) - 1 + 2) * (1 / 6) - 1 / 18| = 10 / 9 := by
    rw [show ((6 : ℝ) - 1 + 2) * (1 / 6) - 1 / 18 = 10 / 9 by ring,
      abs_of_nonneg (by norm_num)]
  rw [hd]
  unfold Delta1D
  rw [show Real.pi * (10 / 9) / (2 * (1 / 6 : ℝ)) =
      (Real.pi + Real.pi / 3) + 2 * Real.pi by ring,
    Real.cos_add_two_pi, Real.cos_add, Real.cos_pi, Real.sin_pi,
    Real.cos_pi_div_three]
  norm_num

lemma c1ce_a3 : Delta1D |((6 : ℝ) - 1 + 3) * (1 / 6) - 1 / 18| (1 / 6) =
    3 / 2 * (1 + Real.sqrt 3 / 2) := by
  have hd : |((6 : ℝ) - 1 + 3) * (1 / 6) - 1 / 18| = 23 / 18 := by
    rw [show ((6 : ℝ) - 1 + 3) * (1 / 6) - 1 / 18 = 23 / 18 by ring,
      abs_of_nonneg (by norm_num)]
  rw [hd]
  unfold Delta1D
  rw [show Real.pi * (23 / 18) / (2 * (1 / 6 : ℝ)) =
      -(Real.pi / 6) + (2 : ℤ) * (2 * Real.pi) by push_cast; ring,
    Real.cos_add_int_mul_two_pi, Real.cos_neg, Real.cos_pi_div_six]
  ring

/-- Counterexample to C1 as stated: on a 6x6 grid (6 is not divisible by 4)
the node at `(1/18, 1/2)` has its stencil wrapped, and the area-weighted sum
of the deposited x-forces is `3/4` of the claimed `fx * dl = 1`. -/
theorem c1_counterexample :
    (1 / (6 : ℝ)) * (1 / 6) *
        (gridSum 6 6 (propagateForceOfNode 6 6 (1 / 6) (1 / 6) (1 / 18) (1 / 2)
            1 1 1 (fun _ => 0) (fun _ => 0)).1 -
          gridSum 6 6 (fun _ => 0)) ≠ 1 * 1 := by
  have h6 : (0 : ℕ) < 6 := by norm_num
  have hfloorx : ⌊(1 / 18 : ℝ) / (1 / 6)⌋ = 0 := by
    rw [show (1 / 18 : ℝ) / (1 / 6) = 1 / 3 by norm_num]
    rw [Int.floor_eq_zero_iff]
    constructor <;> norm_num
  have hfloory : ⌊(1 / 2 : ℝ) / (1 / 6)⌋ = 3 := by
    rw [show (1 / 2 : ℝ) / (1 / 6) = 3 by norm_num]
    norm_num
  have hwx : (⌊(1 / 18 : ℝ) / (1 / 6)⌋ - 1 : ℤ) = -1 := by rw [hfloorx]; decide
  have hfy : (⌊(1 / 2 : ℝ) / (1 / 6)⌋ - 1 : ℤ) = 2 := by rw [hfloory]; rfl
  have hb : ¬((⌊(1 / 18 : ℝ) / (1 / 6)⌋ - 1 : ℤ) + (6 : ℕ) = -1) := by
    rw [hfloorx]; decide
  unfold propagateForceOfNode
  have hr4 : List.range 4 = [0, 1, 2, 3] := rfl
  rw [hr4]
  simp only [List.foldl_cons, List.foldl_nil]
  rw [spreadOuter_eval_bump 6 6 (1/6) (1/6) (1/18) (1/2) 1 1 1 _ _ 0 hwx,
    spreadOuter_eval_nobump 6 6 (1/6) (1/6) (1/18) (1/2) 1 1 1 _ _ 1 hb,
    spreadOuter_eval_nobump 6 6 (1/6) (1/6) (1/18) (1/2) 1 1 1 _ _ 2 hb,
    spreadOuter_eval_nobump 6 6 (1/6) (1/6) (1/18) (1/2) 1 1 1 _ _ 3 hb]
  dsimp only
  rw [(spreadInnerFold_eval2 6 6 h6 h6 (1/6) (1/6) (1/18) (1/2) 1 1 1 _ _ _ _).2.1,
    (spreadInnerFold_eval2 6 6 h6 h6 (1/6) (1/6) (1/18) (1/2) 1 1 1 _ _ _ _).2.1,
    (spreadInnerFold_eval2 6 6 h6 h6 (1/6) (1/6) (1/18) (1/2) 1 1 1 _ _ _ _).2.1,
    (spreadInnerFold_eval2 6 6 h6 h6 (1/6) (1/6) (1/18) (1/2) 1 1 1 _ _ _ _).2.1]
  rw [hfy]
  simp only [spreadInnerFold_state 6 6 h6 h6 (1/6) (1/6) (1/18) (1/2) 1 1 1]
  simp only [show ¬((2 : ℤ) = -1) by decide, if_false, if_neg]
  rw [yWeightSum_c1ce]
  have c0 : (((⌊(1 / 18 : ℝ) / (1 / 6)⌋ - 1 : ℤ) + ((0 : ℕ) : ℤ) : ℤ) : ℝ) * (1 / 6) -
      1 / 18 = (-1 : ℝ) * (1 / 6) - 1 / 18 := by
    rw [hfloorx]; push_cast; ring
  have c1 : (((⌊(1 / 18 : ℝ) / (1 / 6)⌋ - 1 : ℤ) + (6 : ℕ) + ((1 : ℕ) : ℤ) : ℤ) : ℝ) *
      (1 / 6) - 1 / 18 = ((6 : ℝ) - 1 + 1) * (1 / 6) - 1 / 18 := by
    rw [hfloorx]; push_cast; ring
  have c2 : (((⌊(1 / 18 : ℝ) / (1 / 6)⌋ - 1 : ℤ) + (6 : ℕ) + ((2 : ℕ) : ℤ) : ℤ) : ℝ) *
      (1 / 6) - 1 / 18 = ((6 : ℝ) - 1 + 2) * (1 / 6) - 1 / 18 := by
    rw [hfloorx]; push_cast; ring
  have c3 : (((⌊(1 / 18 : ℝ) / (1 / 6)⌋ - 1 : ℤ) + (6 : ℕ) + ((3 : ℕ) : ℤ) : ℤ) : ℝ) *
      (1 / 6) - 1 / 18 = ((6 : ℝ) - 1 + 3) * (1 / 6) - 1 / 18 := by
    rw [hfloorx]; push_cast; ring
  rw [c0, c1, c2, c3, c1ce_a0, c1ce_a1, c1ce_a2, c1ce_a3]
  intro h
  ring_nf at h
  norm_num at h

/-- Witness for C1 (amended) on a 4x4 grid at node `(1/8, 1/8)` with
`fx = 2`, `fy = 3`, `dl = 5`. -/
theorem c1_witness :
    (4 ∣ 4) ∧
    (1 / ((4 : ℕ) : ℝ)) * (1 / ((4 : ℕ) : ℝ)) *
        (gridSum 4 4 (propagateForceOfNode 4 4 (1 / ((4 : ℕ) : ℝ)) (1 / ((4 : ℕ) : ℝ))
            (1 / 8) (1 / 8) 2 3 5 (fun _ => 0) (fun _ => 0)).1 -
          gridSum 4 4 (fun _ => 0)) = 2 * 5 :=
  ⟨by norm_num,
    (c1_spread_totalForce 4 4 (1 / 8) (1 / 8) 2 3 5 (fun _ => 0) (fun _ => 0)
      (by norm_num) (by norm_num) (by norm_num) (by norm_num)
      (by norm_num) (by norm_num) (by norm_num) (by norm_num)).1⟩
